import Mathlib

/-!
# VocabCardApp: card store, settings store and reminder scheduling

A shallow embedding of the handlers of `AddCardScreen.js`, `CardListScreen.js`,
`SettingsScreen.js` and `ThemeContext.js`, together with the platform
functions they call (`String.prototype.trim`, `JSON.stringify`, `JSON.parse`,
`AsyncStorage`, `BackgroundFetch`, `Alert`).

JavaScript strings are sequences of UTF-16 code units.  Every external call
is atomic at the point where the handler issues it and is recorded, in
order, in the log of the world.  A handler sees the component state of the
render that created it; a sequence of calls passes the state each call
leaves to the next.  Two invocations of `handleAddCard` in flight at once
are the handler's segments before and after `await AsyncStorage.getItem`,
run in the order a schedule gives.
-/

namespace VocabCardApp

/-! ## JavaScript strings -/

/-- A JavaScript string, as its sequence of UTF-16 code units. -/
abbrev JSString := List Nat

/-- The code units of an ASCII program literal. -/
def lit (s : String) : JSString := s.toList.map Char.toNat

/-- WhiteSpace and LineTerminator code units, the ones `trim` strips. -/
def isTrimUnit (c : Nat) : Bool :=
  c = 9 || c = 10 || c = 11 || c = 12 || c = 13 || c = 32 || c = 160 ||
  c = 5760 || (8192 ≤ c && c ≤ 8202) || c = 8232 || c = 8233 || c = 8239 ||
  c = 8287 || c = 12288 || c = 65279

/-- `String.prototype.trim`. -/
def trim (s : JSString) : JSString :=
  ((s.dropWhile isTrimUnit).reverse.dropWhile isTrimUnit).reverse

/-- The decimal digits of a natural number, most significant first, as code
units: `Number.prototype.toString` on a non-negative integer below 1e21. -/
def decimal (n : Nat) : JSString := (Nat.toDigits 10 n).map Char.toNat

/-- JSON text of an integer-valued number. -/
def intText (i : Int) : JSString :=
  if i < 0 then 45 :: decimal i.natAbs else decimal i.natAbs

/-! ## JSON values -/

/-- The values `JSON.parse` can return.  A number is carried as its JSON
text: IEEE-754 arithmetic is not modelled, and the only numbers the
application writes are integers, whose text is their decimal form. -/
inductive JSValue where
  | null
  | bool (b : Bool)
  | num (text : JSString)
  | str (s : JSString)
  | arr (items : List JSValue)
  | obj (props : List (JSString × JSValue))

/-! ### JSON.stringify -/

def hexDigit (n : Nat) : Nat := if n < 10 then 48 + n else 87 + n

/-- UnicodeEscape: a backslash, `u` and four lowercase hexadecimal digits. -/
def unicodeEscape (c : Nat) : JSString :=
  [92, 117, hexDigit (c / 4096 % 16), hexDigit (c / 256 % 16),
    hexDigit (c / 16 % 16), hexDigit (c % 16)]

def isLeadSurrogate (c : Nat) : Bool := 55296 ≤ c && c ≤ 56319

def isTrailSurrogate (c : Nat) : Bool := 56320 ≤ c && c ≤ 57343

/-- The JSON text of one code unit that is not a surrogate. -/
def quoteUnit (c : Nat) : JSString :=
  if c = 8 then [92, 98]
  else if c = 9 then [92, 116]
  else if c = 10 then [92, 110]
  else if c = 12 then [92, 102]
  else if c = 13 then [92, 114]
  else if c = 34 then [92, 34]
  else if c = 92 then [92, 92]
  else if c < 32 then unicodeEscape c
  else [c]

/-- The body of QuoteJSONString: a surrogate pair is copied, a lone surrogate
is escaped. -/
def quoteBody : JSString → JSString
  | [] => []
  | [c] =>
    if isLeadSurrogate c || isTrailSurrogate c then unicodeEscape c else quoteUnit c
  | c :: d :: rest =>
    if isLeadSurrogate c then
      if isTrailSurrogate d then c :: d :: quoteBody rest
      else unicodeEscape c ++ quoteBody (d :: rest)
    else if isTrailSurrogate c then unicodeEscape c ++ quoteBody (d :: rest)
    else quoteUnit c ++ quoteBody (d :: rest)

/-- QuoteJSONString. -/
def quote (s : JSString) : JSString := 34 :: (quoteBody s ++ [34])

mutual
/-- `JSON.stringify(value)` without indentation. -/
def JSON_stringify : JSValue → JSString
  | .null => lit "null"
  | .bool true => lit "true"
  | .bool false => lit "false"
  | .num text => text
  | .str s => quote s
  | .arr items => 91 :: (stringifyItems items ++ [93])
  | .obj props => 123 :: (stringifyProps props ++ [125])
/-- The elements of an array, separated by commas. -/
def stringifyItems : List JSValue → JSString
  | [] => []
  | [v] => JSON_stringify v
  | v :: w :: rest => JSON_stringify v ++ 44 :: stringifyItems (w :: rest)
/-- The members of an object, separated by commas. -/
def stringifyProps : List (JSString × JSValue) → JSString
  | [] => []
  | [(k, v)] => quote k ++ 58 :: JSON_stringify v
  | (k, v) :: p :: rest => quote k ++ 58 :: (JSON_stringify v ++ 44 :: stringifyProps (p :: rest))
end

/-! ### JSON.parse -/

/-- JSON whitespace: tab, line feed, carriage return, space. -/
def isJSONSpace (c : Nat) : Bool := c = 9 || c = 10 || c = 13 || c = 32

def skipWs (s : JSString) : JSString := s.dropWhile isJSONSpace

def isDigit (c : Nat) : Bool := 48 ≤ c && c ≤ 57

/-- The value of a hexadecimal digit, in either case. -/
def hexVal (c : Nat) : Option Nat :=
  if 48 ≤ c ∧ c ≤ 57 then some (c - 48)
  else if 97 ≤ c ∧ c ≤ 102 then some (c - 87)
  else if 65 ≤ c ∧ c ≤ 70 then some (c - 55)
  else none

/-- The code unit a single-character escape stands for. -/
def unescape (e : Nat) : Option Nat :=
  if e = 34 then some 34
  else if e = 92 then some 92
  else if e = 47 then some 47
  else if e = 98 then some 8
  else if e = 102 then some 12
  else if e = 110 then some 10
  else if e = 114 then some 13
  else if e = 116 then some 9
  else none

/-- Put a code unit in front of the string of a parse result. -/
def consUnit (c : Nat) (p : Option (JSString × JSString)) : Option (JSString × JSString) :=
  match p with
  | some (s, rest) => some (c :: s, rest)
  | none => none

/-- The characters of a JSON string after its opening quote, up to and
including the closing quote; returns the string and the remaining input. -/
def parseStringBody : JSString → Option (JSString × JSString)
  | [] => none
  | c :: r =>
    if c = 34 then some ([], r)
    else if c = 92 then
      match r with
      | [] => none
      | e :: r1 =>
        if e = 117 then
          match r1 with
          | h1 :: h2 :: h3 :: h4 :: r2 =>
            match hexVal h1, hexVal h2, hexVal h3, hexVal h4 with
            | some a, some b, some c2, some d =>
              consUnit (((a * 16 + b) * 16 + c2) * 16 + d) (parseStringBody r2)
            | _, _, _, _ => none
          | _ => none
        else
          match unescape e with
          | some u => consUnit u (parseStringBody r1)
          | none => none
    else if c < 32 then none
    else consUnit c (parseStringBody r)

/-- One or more digits; returns them and the remaining input. -/
def parseDigits (s : JSString) : Option (JSString × JSString) :=
  if (s.takeWhile isDigit).isEmpty then none
  else some (s.takeWhile isDigit, s.dropWhile isDigit)

/-- The integer part of a number: a single `0`, or a non-zero digit followed
by digits. -/
def parseIntPart : JSString → Option (JSString × JSString)
  | [] => none
  | c :: r =>
    if c = 48 then some ([48], r)
    else if isDigit c then some (c :: r.takeWhile isDigit, r.dropWhile isDigit)
    else none

/-- The optional fraction of a number. -/
def parseFrac : JSString → Option (JSString × JSString)
  | 46 :: r =>
    match parseDigits r with
    | some (ds, rest) => some (46 :: ds, rest)
    | none => none
  | s => some ([], s)

/-- The optional exponent of a number. -/
def parseExp : JSString → Option (JSString × JSString)
  | [] => some ([], [])
  | c :: r =>
    if c = 101 ∨ c = 69 then
      match r with
      | s :: r1 =>
        if s = 43 ∨ s = 45 then
          match parseDigits r1 with
          | some (ds, rest) => some (c :: s :: ds, rest)
          | none => none
        else
          match parseDigits r with
          | some (ds, rest) => some (c :: ds, rest)
          | none => none
      | [] => none
    else some ([], c :: r)

/-- A JSON number token; returns its text and the remaining input. -/
def parseNumber (s : JSString) : Option (JSString × JSString) :=
  let (sign, s1) := match s with
    | 45 :: r => ([45], r)
    | _ => ([], s)
  match parseIntPart s1 with
  | none => none
  | some (ip, s2) =>
    match parseFrac s2 with
    | none => none
    | some (fp, s3) =>
      match parseExp s3 with
      | none => none
      | some (ep, s4) => some (sign ++ ip ++ fp ++ ep, s4)

/-- The array index a property key denotes, if it is the canonical decimal
form of an integer below 2^32 - 1. -/
def arrayIndex (k : JSString) : Option Nat :=
  if k.all isDigit ∧ k ≠ [] ∧ (k = [48] ∨ k.head? ≠ some 48) then
    let n := k.foldl (fun acc c => acc * 10 + (c - 48)) 0
    if n < 4294967295 then some n else none
  else none

/-- Insert a new key among the own properties, which are kept in the order
of OrdinaryOwnPropertyKeys: array indices ascending, then the other keys in
creation order. -/
def insertProp (k : JSString) (v : JSValue) :
    List (JSString × JSValue) → List (JSString × JSValue)
  | [] => [(k, v)]
  | (k1, v1) :: rest =>
    match arrayIndex k, arrayIndex k1 with
    | some n, some n1 =>
      if n < n1 then (k, v) :: (k1, v1) :: rest else (k1, v1) :: insertProp k v rest
    | some _, none => (k, v) :: (k1, v1) :: rest
    | none, _ => (k1, v1) :: insertProp k v rest

/-- CreateDataProperty on an ordinary object: an existing key keeps its place
and takes the new value, a new key is inserted. -/
def setProp (props : List (JSString × JSValue)) (k : JSString) (v : JSValue) :
    List (JSString × JSValue) :=
  if props.any (fun p => p.1 = k) then
    props.map (fun p => if p.1 = k then (k, v) else p)
  else insertProp k v props

mutual
/-- A JSON value, after optional whitespace; returns the value and the
remaining input.  The first argument bounds the number of nested calls. -/
def parseValue : Nat → JSString → Option (JSValue × JSString)
  | 0, _ => none
  | fuel + 1, input =>
    match skipWs input with
    | [] => none
    | c :: r =>
      if c = 34 then
        match parseStringBody r with
        | some (s, rest) => some (.str s, rest)
        | none => none
      else if c = 91 then
        match skipWs r with
        | [] => none
        | d :: r1 =>
          if d = 93 then some (.arr [], r1) else parseElements fuel (d :: r1) []
      else if c = 123 then
        match skipWs r with
        | [] => none
        | d :: r1 =>
          if d = 125 then some (.obj [], r1) else parseMembers fuel (d :: r1) []
      else if c = 45 ∨ isDigit c then
        match parseNumber (c :: r) with
        | some (text, rest) => some (.num text, rest)
        | none => none
      else if (c :: r).take 4 = lit "null" then some (.null, (c :: r).drop 4)
      else if (c :: r).take 4 = lit "true" then some (.bool true, (c :: r).drop 4)
      else if (c :: r).take 5 = lit "false" then some (.bool false, (c :: r).drop 5)
      else none
/-- The elements of a non-empty array and its closing bracket. -/
def parseElements : Nat → JSString → List JSValue → Option (JSValue × JSString)
  | 0, _, _ => none
  | fuel + 1, input, acc =>
    match parseValue fuel input with
    | none => none
    | some (v, rest) =>
      match skipWs rest with
      | [] => none
      | c :: r =>
        if c = 44 then parseElements fuel r (acc ++ [v])
        else if c = 93 then some (.arr (acc ++ [v]), r)
        else none
/-- The members of a non-empty object and its closing brace. -/
def parseMembers : Nat → JSString → List (JSString × JSValue) → Option (JSValue × JSString)
  | 0, _, _ => none
  | fuel + 1, input, acc =>
    match skipWs input with
    | [] => none
    | q :: r0 =>
      if q = 34 then
        match parseStringBody r0 with
        | none => none
        | some (k, r1) =>
          match skipWs r1 with
          | [] => none
          | colon :: r2 =>
            if colon = 58 then
              match parseValue fuel r2 with
              | none => none
              | some (v, rest) =>
                match skipWs rest with
                | [] => none
                | c :: r =>
                  if c = 44 then parseMembers fuel r (setProp acc k v)
                  else if c = 125 then some (.obj (setProp acc k v), r)
                  else none
            else none
      else none
end

/-- `JSON.parse(text)`: `none` when it throws a SyntaxError.  Every nested
call consumes input, so the bound on nesting is never the cause of a
failure (`parseValue_fuel`). -/
def JSON_parse (text : JSString) : Option JSValue :=
  match parseValue (2 * text.length + 2) text with
  | some (v, rest) => if skipWs rest = [] then some v else none
  | none => none

/-! ## The platform: storage, task registration, alerts -/

/-- The externally visible actions of the handlers, in the order issued. -/
inductive Effect where
  | getItem (key : String)
  | setItem (key : String) (value : JSString)
  | registerTaskAsync (task : String) (minimumInterval : Int)
  | unregisterTaskAsync (task : String)
  | alert (title message : String)
  | consoleError (message : String)
  deriving DecidableEq

/-- Whether an effect is a read or a write of the storage backend. -/
def Effect.isStorageCall : Effect → Bool
  | .getItem _ => true
  | .setItem _ _ => true
  | _ => false

/-- Whether an effect is a call to the storage backend or to the task
registration service. -/
def Effect.isServiceCall : Effect → Bool
  | .getItem _ => true
  | .setItem _ _ => true
  | .registerTaskAsync _ _ => true
  | .unregisterTaskAsync _ => true
  | _ => false

/-- Everything outside the components: the contents of AsyncStorage, the
active registration of the background task (its minimumInterval) and the log
of effects. -/
structure World where
  storage : String → Option JSString
  task : Option Int
  log : List Effect

/-- Which of the external calls made during one handler invocation reject. -/
structure Faults where
  getItem : Bool
  setItem : Bool
  registerTask : Bool
  unregisterTask : Bool

/-- No external call rejects. -/
def noFaults : Faults := ⟨false, false, false, false⟩

/-- Append an effect to the log. -/
def World.emit (w : World) (e : Effect) : World := { w with log := w.log ++ [e] }

/-- The effects `w1` has logged beyond those of `w`. -/
def World.since (w1 w : World) : List Effect := w1.log.drop w.log.length

/-- `await AsyncStorage.getItem(key)`: `none` when the call rejects,
otherwise the stored string or `null`. -/
def AsyncStorage_getItem (f : Faults) (key : String) (w : World) :
    Option (Option JSString) × World :=
  if f.getItem then (none, w.emit (.getItem key))
  else (some (w.storage key), w.emit (.getItem key))

/-- `await AsyncStorage.setItem(key, value)`: `false` when the call rejects,
in which case nothing is stored. -/
def AsyncStorage_setItem (f : Faults) (key : String) (value : JSString) (w : World) :
    Bool × World :=
  if f.setItem then (false, w.emit (.setItem key value))
  else (true, { w.emit (.setItem key value) with
    storage := fun k => if k = key then some value else w.storage k })

/-- `await BackgroundFetch.registerTaskAsync(task, options)` with the given
`minimumInterval`: `false` when the call rejects. -/
def BackgroundFetch_registerTaskAsync (f : Faults) (task : String) (minimumInterval : Int)
    (w : World) : Bool × World :=
  if f.registerTask then (false, w.emit (.registerTaskAsync task minimumInterval))
  else (true, { w.emit (.registerTaskAsync task minimumInterval) with
    task := some minimumInterval })

/-- `await BackgroundFetch.unregisterTaskAsync(task)`: `false` when the call
rejects. -/
def BackgroundFetch_unregisterTaskAsync (f : Faults) (task : String) (w : World) :
    Bool × World :=
  if f.unregisterTask then (false, w.emit (.unregisterTaskAsync task))
  else (true, { w.emit (.unregisterTaskAsync task) with task := none })

/-- `Alert.alert(title, message)`. -/
def Alert_alert (title message : String) (w : World) : World := w.emit (.alert title message)

/-- `console.error(message, error)`. -/
def console_error (message : String) (w : World) : World := w.emit (.consoleError message)

/-! ## Card store -/

/-- A vocabulary card. -/
structure Card where
  id : JSString
  word : JSString
  meaning : JSString
  example_ : JSString
  deriving DecidableEq

/-- The object a card is in memory, with its properties in creation order. -/
def Card.toJS (c : Card) : JSValue :=
  .obj [(lit "id", .str c.id), (lit "word", .str c.word),
    (lit "meaning", .str c.meaning), (lit "example", .str c.example_)]

/-- The array a collection of cards is in memory. -/
def cardsJS (cs : List Card) : JSValue := .arr (cs.map Card.toJS)

/-- `cards.push(newCard)`: `none` (a TypeError) unless `cards` is an array. -/
def push : JSValue → JSValue → Option JSValue
  | .arr items, v => some (.arr (items ++ [v]))
  | _, _ => none

/-- `handleAddCard` of AddCardScreen, with the component state `word`,
`meaning`, `example_` and the value `now` of `Date.now()`. -/
def handleAddCard (f : Faults) (now : Nat) (word meaning example_ : JSString) (w : World) :
    World :=
  if trim word = [] ∨ trim meaning = [] then
    Alert_alert "Error" "Please fill in both word and meaning" w
  else
    let newCard : Card :=
      { id := decimal now, word := trim word, meaning := trim meaning, example_ := trim example_ }
    match AsyncStorage_getItem f "vocabCards" w with
    | (none, w1) => Alert_alert "Error" "Failed to add card" w1
    | (some existingCards, w1) =>
      let parsed : Option JSValue :=
        match existingCards with
        | some text => if text ≠ [] then JSON_parse text else some (.arr [])
        | none => some (.arr [])
      match parsed with
      | none => Alert_alert "Error" "Failed to add card" w1
      | some cards =>
        match push cards newCard.toJS with
        | none => Alert_alert "Error" "Failed to add card" w1
        | some cards1 =>
          match AsyncStorage_setItem f "vocabCards" (JSON_stringify cards1) w1 with
          | (false, w2) => Alert_alert "Error" "Failed to add card" w2
          | (true, w2) => Alert_alert "Success" "Card added successfully" w2

/-- `loadCards` of CardListScreen, on the component state `cards`. -/
def loadCards (f : Faults) (cards : JSValue) (w : World) : JSValue × World :=
  match AsyncStorage_getItem f "vocabCards" w with
  | (none, w1) =>
    (cards, Alert_alert "Error" "Failed to load vocabulary cards"
      (console_error "Error loading cards:" w1))
  | (some storedCards, w1) =>
    match storedCards with
    | some text =>
      if text ≠ [] then
        match JSON_parse text with
        | some v => (v, w1)
        | none =>
          (cards, Alert_alert "Error" "Failed to load vocabulary cards"
            (console_error "Error loading cards:" w1))
      else (.arr [], w1)
    | none => (.arr [], w1)

/-- `card.id`: `none` when reading the property throws (the card is `null`),
`some none` when it is `undefined`. -/
def getId : JSValue → Option (Option JSValue)
  | .null => none
  | .obj props => some ((props.find? (fun p => p.1 = lit "id")).map (fun p => p.2))
  | _ => some none

/-- `card.id !== id` for a string `id`. -/
def idDiffers (id : JSString) : Option JSValue → Bool
  | some (.str s) => s ≠ id
  | _ => true

/-- `cards.filter(card => card.id !== id)`: `none` when it throws, that is
when `cards` is not an array or holds a `null`. -/
def filterCards (id : JSString) : List JSValue → Option (List JSValue)
  | [] => some []
  | card :: rest =>
    match getId card with
    | none => none
    | some cardId =>
      match filterCards id rest with
      | none => none
      | some kept => if idDiffers id cardId then some (card :: kept) else some kept

/-- `deleteCard(id)` of CardListScreen, on the component state `cards`. -/
def deleteCard (f : Faults) (id : JSString) (cards : JSValue) (w : World) : JSValue × World :=
  let filtered : Option (List JSValue) :=
    match cards with
    | .arr items => filterCards id items
    | _ => none
  match filtered with
  | none => (cards, Alert_alert "Error" "Failed to delete card" w)
  | some updatedCards =>
    match AsyncStorage_setItem f "vocabCards" (JSON_stringify (.arr updatedCards)) w with
    | (false, w1) => (cards, Alert_alert "Error" "Failed to delete card" w1)
    | (true, w1) => (.arr updatedCards, Alert_alert "Success" "Card deleted successfully" w1)

/-! ## Settings store and reminder scheduling -/

def BACKGROUND_FETCH_TASK : String := "background-fetch-task"

/-- The component state of SettingsScreen, as seen by the handlers of one
render. -/
structure SettingsState where
  notificationsEnabled : Bool
  interval : Int
  deriving DecidableEq

/-- The state of the first render: `useState(false)`, `useState(30)`. -/
def initialSettings : SettingsState := ⟨false, 30⟩

/-- The settings object, with its properties `notificationsEnabled` and
`interval` in creation order. -/
def SettingsState.toJS (s : SettingsState) : JSValue :=
  .obj [(lit "notificationsEnabled", .bool s.notificationsEnabled),
    (lit "interval", .num (intText s.interval))]

/-- `saveSettings(newSettings)`: the write is issued when the function is
called; a rejection is logged and not propagated. -/
def saveSettings (f : Faults) (newSettings : SettingsState) (w : World) : World :=
  match AsyncStorage_setItem f "settings" (JSON_stringify newSettings.toJS) w with
  | (true, w1) => w1
  | (false, w1) => console_error "Error saving settings:" w1

/-- `registerBackgroundFetchAsync()`, which reads `interval` from the state
of the render; the flag tells whether it returned without throwing. -/
def registerBackgroundFetchAsync (f : Faults) (st : SettingsState) (w : World) : Bool × World :=
  match BackgroundFetch_registerTaskAsync f BACKGROUND_FETCH_TASK (st.interval * 60) w with
  | (true, w1) => (true, w1)
  | (false, w1) => (true, console_error "Error registering background fetch:" w1)

/-- `unregisterBackgroundFetchAsync()`; the flag tells whether it returned
without throwing. -/
def unregisterBackgroundFetchAsync (f : Faults) (w : World) : Bool × World :=
  match BackgroundFetch_unregisterTaskAsync f BACKGROUND_FETCH_TASK w with
  | (true, w1) => (true, w1)
  | (false, w1) => (true, console_error "Error unregistering background fetch:" w1)

/-- `toggleNotifications(value)`; returns the state of the next render. -/
def toggleNotifications (f : Faults) (value : Bool) (st : SettingsState) (w : World) :
    SettingsState × World :=
  match (if value then registerBackgroundFetchAsync f st w
      else unregisterBackgroundFetchAsync f w) with
  | (true, w1) =>
    ({ st with notificationsEnabled := value },
      saveSettings f { notificationsEnabled := value, interval := st.interval } w1)
  | (false, w1) =>
    (st, Alert_alert "Error" "Failed to update notification settings"
      (console_error "Error toggling notifications:" w1))

/-- `updateInterval(newInterval)`; returns the state of the next render. -/
def updateInterval (f : Faults) (newInterval : Int) (st : SettingsState) (w : World) :
    SettingsState × World :=
  let st1 : SettingsState := { st with interval := newInterval }
  let w1 := saveSettings f
    { notificationsEnabled := st.notificationsEnabled, interval := newInterval } w
  if st.notificationsEnabled then
    match unregisterBackgroundFetchAsync f w1 with
    | (false, w2) =>
      (st1, Alert_alert "Error" "Failed to update reminder interval"
        (console_error "Error updating interval:" w2))
    | (true, w2) =>
      match registerBackgroundFetchAsync f st w2 with
      | (false, w3) =>
        (st1, Alert_alert "Error" "Failed to update reminder interval"
          (console_error "Error updating interval:" w3))
      | (true, w3) => (st1, w3)
  else (st1, w1)

/-! ## Theme -/

/-- `toggleDarkMode()` of ThemeProvider, on the component state `isDarkMode`;
returns the state of the next render. -/
def toggleDarkMode (f : Faults) (isDarkMode : Bool) (w : World) : Bool × World :=
  let newStatus := !isDarkMode
  match AsyncStorage_setItem f "appSettings"
      (JSON_stringify (.obj [(lit "darkMode", .bool newStatus)])) w with
  | (true, w1) => (newStatus, w1)
  | (false, w1) => (newStatus, console_error "Error saving theme:" w1)

/-! ## Vocabulary of the statements -/

/-- The storage holds the collection `cs`: either nothing was ever stored
and `cs` is empty, or the stored payload decodes to `cs`. -/
def StoredCards (w : World) (cs : List Card) : Prop :=
  (w.storage "vocabCards" = none ∧ cs = []) ∨
    ∃ text, w.storage "vocabCards" = some text ∧ JSON_parse text = some (cardsJS cs)

/-- The collection without the records that carry `id`. -/
def withoutId (id : JSString) (cs : List Card) : List Card :=
  cs.filter (fun c => decide (c.id ≠ id))

/-- A world in which nothing is stored, nothing is registered and nothing
has happened. -/
def emptyWorld : World := ⟨fun _ => none, none, []⟩

/-- A sample card. -/
def catCard : Card := ⟨lit "1", lit "cat", lit "chat", []⟩

/-- A world whose storage holds the collection made of the sample card. -/
def catWorld : World :=
  ⟨fun k => if k = "vocabCards" then some (JSON_stringify (cardsJS [catCard])) else none,
    none, []⟩

/-- A world whose stored payload is the empty string. -/
def blankWorld : World := ⟨fun k => if k = "vocabCards" then some [] else none, none, []⟩

/-- A world whose stored payload is a truncated array. -/
def garbledWorld : World :=
  ⟨fun k => if k = "vocabCards" then some (lit "[oops") else none, none, []⟩

/-- Only the storage write rejects. -/
def writeRejects : Faults := ⟨false, true, false, false⟩

/-- Only the registration of the background task rejects. -/
def registrationRejects : Faults := ⟨false, false, true, false⟩

/-! ## Handlers in flight and sequences of calls -/

/-- One invocation of `handleAddCard` suspended at
`await AsyncStorage.getItem`: the card it has built and what the read
resolves to (`none` when it rejects). -/
structure PendingAdd where
  newCard : Card
  existingCards : Option (Option JSString)

/-- `handleAddCard` from its start to the resumption after
`await AsyncStorage.getItem`; `none` when the call ended at the validation. -/
def handleAddCard_read (f : Faults) (now : Nat) (word meaning example_ : JSString) (w : World) :
    Option PendingAdd × World :=
  if trim word = [] ∨ trim meaning = [] then
    (none, Alert_alert "Error" "Please fill in both word and meaning" w)
  else
    let newCard : Card :=
      { id := decimal now, word := trim word, meaning := trim meaning, example_ := trim example_ }
    match AsyncStorage_getItem f "vocabCards" w with
    | (existingCards, w1) => (some ⟨newCard, existingCards⟩, w1)

/-- `handleAddCard` from the resumption after the read to its end. -/
def handleAddCard_write (f : Faults) (p : PendingAdd) (w1 : World) : World :=
  match p.existingCards with
  | none => Alert_alert "Error" "Failed to add card" w1
  | some existingCards =>
    let parsed : Option JSValue :=
      match existingCards with
      | some text => if text ≠ [] then JSON_parse text else some (.arr [])
      | none => some (.arr [])
    match parsed with
    | none => Alert_alert "Error" "Failed to add card" w1
    | some cards =>
      match push cards p.newCard.toJS with
      | none => Alert_alert "Error" "Failed to add card" w1
      | some cards1 =>
        match AsyncStorage_setItem f "vocabCards" (JSON_stringify cards1) w1 with
        | (false, w2) => Alert_alert "Error" "Failed to add card" w2
        | (true, w2) => Alert_alert "Success" "Card added successfully" w2

/-- The arguments of one invocation of `handleAddCard`. -/
structure AddRequest where
  faults : Faults
  now : Nat
  word : JSString
  meaning : JSString
  example_ : JSString

/-- Where an invocation of `handleAddCard` stands. -/
inductive AddPhase where
  | notStarted
  | suspended (p : PendingAdd)
  | finished

/-- Run an invocation up to its next suspension or to its end. -/
def stepAdd (r : AddRequest) (ph : AddPhase) (w : World) : AddPhase × World :=
  match ph with
  | .notStarted =>
    match handleAddCard_read r.faults r.now r.word r.meaning r.example_ w with
    | (none, w1) => (.finished, w1)
    | (some p, w1) => (.suspended p, w1)
  | .suspended p => (.finished, handleAddCard_write r.faults p w)
  | .finished => (.finished, w)

/-- Two invocations of `handleAddCard` on one storage: the schedule tells,
turn by turn, which invocation runs next (`true`: the first one). -/
def runTwoAdds (a b : AddRequest) :
    List Bool → AddPhase × AddPhase × World → AddPhase × AddPhase × World
  | [], s => s
  | true :: rest, (pa, pb, w) => runTwoAdds a b rest ((stepAdd a pa w).1, pb, (stepAdd a pa w).2)
  | false :: rest, (pa, pb, w) => runTwoAdds a b rest (pa, (stepAdd b pb w).1, (stepAdd b pb w).2)

/-- A call of one of the two handlers of the settings screen. -/
inductive SettingsCall where
  | toggleNotifications (value : Bool)
  | updateInterval (newInterval : Int)

/-- Run one call on the state of the current render. -/
def SettingsCall.run (f : Faults) : SettingsCall → SettingsState → World → SettingsState × World
  | .toggleNotifications value, st, w => VocabCardApp.toggleNotifications f value st w
  | .updateInterval newInterval, st, w => VocabCardApp.updateInterval f newInterval st w

/-- Run a sequence of calls, each on the state left by the one before, with
the faults given for it. -/
def runSettings : List (Faults × SettingsCall) → SettingsState → World → SettingsState × World
  | [], st, w => (st, w)
  | (f, c) :: rest, st, w => runSettings rest (c.run f st w).1 (c.run f st w).2

/-! ## Vocabulary of the statements, continued -/

/-- The payload `stored` decodes to the collection `cs`; nothing stored
counts as the empty collection. -/
def Decodes (stored : Option JSString) (cs : List Card) : Prop :=
  (stored = none ∧ cs = []) ∨
    ∃ text, stored = some text ∧ JSON_parse text = some (cardsJS cs)

/-- The storage holds the settings record `s`: the payload under `settings`
decodes to it. -/
def StoredSettings (w : World) (s : SettingsState) : Prop :=
  ∃ text, w.storage "settings" = some text ∧ JSON_parse text = some s.toJS

/-- The cards two adds leave behind the prior collection, by schedule: both
when the calls run one after the other, otherwise only the card of the call
that wrote last. -/
def survivors (a b : Card) (schedule : List Bool) : List Card :=
  if schedule = [true, true, false, false] then [a, b]
  else if schedule = [false, false, true, true] then [b, a]
  else if schedule.getLast? = some true then [a]
  else [b]

/-- The card an add request builds. -/
def AddRequest.card (r : AddRequest) : Card :=
  { id := decimal r.now, word := trim r.word, meaning := trim r.meaning,
    example_ := trim r.example_ }

/-- The request passes the validation and none of its storage calls
rejects. -/
def AddRequest.Succeeds (r : AddRequest) : Prop :=
  r.faults.getItem = false ∧ r.faults.setItem = false ∧ trim r.word ≠ [] ∧ trim r.meaning ≠ []

/-- A sample request: the word "cat", read at clock value 1. -/
def catRequest : AddRequest := ⟨noFaults, 1, lit "cat", lit "chat", []⟩

/-- A sample request: the word "dog", read at clock value 2. -/
def dogRequest : AddRequest := ⟨noFaults, 2, lit "dog", lit "chien", []⟩

/-- The string `t` is `s` without its leading and trailing whitespace: `s`
is whitespace, then `t`, then whitespace, and `t` neither starts nor ends
with a whitespace unit. -/
def Trimmed (s t : JSString) : Prop :=
  (∃ pre post, s = pre ++ t ++ post ∧ (∀ c ∈ pre, isTrimUnit c = true) ∧
      (∀ c ∈ post, isTrimUnit c = true)) ∧
    (∀ c, t.head? = some c → isTrimUnit c = false) ∧
    (∀ c, t.getLast? = some c → isTrimUnit c = false)

/-- Every WhiteSpace and LineTerminator code unit of ECMAScript, once. -/
def allWhitespace : JSString :=
  [9, 10, 11, 12, 13, 32, 160, 5760, 8192, 8193, 8194, 8195, 8196, 8197, 8198, 8199, 8200,
    8201, 8202, 8232, 8233, 8239, 8287, 12288, 65279]

/-- The word "dog" with every whitespace unit before it and after it. -/
def paddedDog : JSString := allWhitespace ++ lit "dog" ++ allWhitespace

/-! ## Decoding what was encoded -/

theorem hexVal_hexDigit : ∀ n, n < 16 → hexVal (hexDigit n) = some n := by decide

theorem parseStringBody_cons (c : Nat) (r : JSString) :
    parseStringBody (c :: r) =
      if c = 34 then some ([], r)
      else if c = 92 then
        match r with
        | [] => none
        | e :: r1 =>
          if e = 117 then
            match r1 with
            | h1 :: h2 :: h3 :: h4 :: r2 =>
              match hexVal h1, hexVal h2, hexVal h3, hexVal h4 with
              | some a, some b, some c2, some d =>
                consUnit (((a * 16 + b) * 16 + c2) * 16 + d) (parseStringBody r2)
              | _, _, _, _ => none
            | _ => none
          else
            match unescape e with
            | some u => consUnit u (parseStringBody r1)
            | none => none
      else if c < 32 then none
      else consUnit c (parseStringBody r) := by
  conv_lhs => rw [parseStringBody.eq_def]
  rfl

theorem parseStringBody_unicodeEscape (c : Nat) (hc : c < 65536) (r : JSString) :
    parseStringBody (unicodeEscape c ++ r) = consUnit c (parseStringBody r) := by
  have h1 := hexVal_hexDigit (c / 4096 % 16) (Nat.mod_lt _ (by decide))
  have h2 := hexVal_hexDigit (c / 256 % 16) (Nat.mod_lt _ (by decide))
  have h3 := hexVal_hexDigit (c / 16 % 16) (Nat.mod_lt _ (by decide))
  have h4 := hexVal_hexDigit (c % 16) (Nat.mod_lt _ (by decide))
  have hv : ((c / 4096 % 16 * 16 + c / 256 % 16) * 16 + c / 16 % 16) * 16 + c % 16 = c := by
    omega
  simp only [unicodeEscape, List.cons_append, List.nil_append, parseStringBody_cons]
  simp [h1, h2, h3, h4, hv]

theorem parseStringBody_plain (c : Nat) (r : JSString) (h1 : c ≠ 34) (h2 : c ≠ 92)
    (h3 : 32 ≤ c) : parseStringBody (c :: r) = consUnit c (parseStringBody r) := by
  rw [parseStringBody_cons]
  simp [h1, h2, Nat.not_lt.mpr h3]

theorem parseStringBody_escape (e u : Nat) (r : JSString) (he : e ≠ 117)
    (hu : unescape e = some u) :
    parseStringBody (92 :: e :: r) = consUnit u (parseStringBody r) := by
  rw [parseStringBody_cons]
  simp [he, hu]

theorem parseStringBody_quoteUnit (c : Nat) (r : JSString) :
    parseStringBody (quoteUnit c ++ r) = consUnit c (parseStringBody r) := by
  unfold quoteUnit
  split_ifs with h8 h9 h10 h12 h13 h34 h92 h32
  · subst h8; exact parseStringBody_escape 98 8 r (by decide) (by decide)
  · subst h9; exact parseStringBody_escape 116 9 r (by decide) (by decide)
  · subst h10; exact parseStringBody_escape 110 10 r (by decide) (by decide)
  · subst h12; exact parseStringBody_escape 102 12 r (by decide) (by decide)
  · subst h13; exact parseStringBody_escape 114 13 r (by decide) (by decide)
  · subst h34; exact parseStringBody_escape 34 34 r (by decide) (by decide)
  · subst h92; exact parseStringBody_escape 92 92 r (by decide) (by decide)
  · exact parseStringBody_unicodeEscape c (by omega) r
  · exact parseStringBody_plain c r h34 h92 (by omega)

theorem parseStringBody_quote_end (rest : JSString) :
    parseStringBody (34 :: rest) = some ([], rest) := by
  simp [parseStringBody_cons]

theorem parseStringBody_quoteBody (s rest : JSString) :
    parseStringBody (quoteBody s ++ 34 :: rest) = some (s, rest) := by
  obtain ⟨n, hn⟩ : ∃ n, s.length = n := ⟨_, rfl⟩
  induction n using Nat.strong_induction_on generalizing s with
  | _ n ih =>
    match s, hn with
    | [], _ => simpa [quoteBody] using parseStringBody_quote_end rest
    | [c], _ =>
      simp only [quoteBody]
      split_ifs with h
      · have hc : c < 65536 := by
          simp [isLeadSurrogate, isTrailSurrogate] at h; omega
        rw [parseStringBody_unicodeEscape c hc, parseStringBody_quote_end]; rfl
      · rw [parseStringBody_quoteUnit, parseStringBody_quote_end]; rfl
    | c :: d :: rest', hn =>
      have ih1 := ih (d :: rest').length (by simp at hn ⊢; omega) (d :: rest') rfl
      have ih2 := ih rest'.length (by simp at hn ⊢; omega) rest' rfl
      simp only [quoteBody]
      split_ifs with h1 h2 h3
      · simp only [isLeadSurrogate, isTrailSurrogate, Bool.and_eq_true, decide_eq_true_eq] at h1 h2
        simp only [List.cons_append]
        rw [parseStringBody_plain c _ (by omega) (by omega) (by omega),
          parseStringBody_plain d _ (by omega) (by omega) (by omega), ih2]; rfl
      · simp only [isLeadSurrogate, Bool.and_eq_true, decide_eq_true_eq] at h1
        rw [List.append_assoc, parseStringBody_unicodeEscape c (by omega), ih1]; rfl
      · simp only [isTrailSurrogate, Bool.and_eq_true, decide_eq_true_eq] at h3
        rw [List.append_assoc, parseStringBody_unicodeEscape c (by omega), ih1]; rfl
      · rw [List.append_assoc, parseStringBody_quoteUnit, ih1]; rfl

theorem skipWs_cons (c : Nat) (r : JSString) (h : isJSONSpace c = false) :
    skipWs (c :: r) = c :: r := by
  simp [skipWs, List.dropWhile, h]

theorem quote_append (s rest : JSString) :
    quote s ++ rest = 34 :: (quoteBody s ++ 34 :: rest) := by
  simp [quote]

theorem parseValue_string (n : Nat) (s rest : JSString) :
    parseValue (n + 1) (quote s ++ rest) = some (.str s, rest) := by
  rw [quote_append, parseValue, skipWs_cons 34 _ (by decide)]
  simp [parseStringBody_quoteBody]

theorem parseMembers_more (n : Nat) (k s rest : JSString) (acc : List (JSString × JSValue)) :
    parseMembers (n + 2) (quote k ++ 58 :: (quote s ++ 44 :: rest)) acc =
      parseMembers (n + 1) rest (setProp acc k (.str s)) := by
  rw [quote_append, parseMembers, skipWs_cons 34 _ (by decide)]
  simp only [if_true, parseStringBody_quoteBody, skipWs_cons 58 _ (by decide),
    parseValue_string, skipWs_cons 44 _ (by decide)]

theorem parseMembers_last (n : Nat) (k s rest : JSString) (acc : List (JSString × JSValue)) :
    parseMembers (n + 2) (quote k ++ 58 :: (quote s ++ 125 :: rest)) acc =
      some (.obj (setProp acc k (.str s)), rest) := by
  rw [quote_append, parseMembers, skipWs_cons 34 _ (by decide)]
  simp only [if_true, parseStringBody_quoteBody, skipWs_cons 58 _ (by decide),
    parseValue_string, skipWs_cons 125 _ (by decide)]
  simp

theorem stringify_card (c : Card) (rest : JSString) :
    JSON_stringify c.toJS ++ rest =
      123 :: (quote (lit "id") ++ 58 :: (quote c.id ++ 44 ::
        (quote (lit "word") ++ 58 :: (quote c.word ++ 44 ::
        (quote (lit "meaning") ++ 58 :: (quote c.meaning ++ 44 ::
        (quote (lit "example") ++ 58 :: (quote c.example_ ++ 125 :: rest)))))))) := by
  simp [Card.toJS, JSON_stringify, stringifyProps]

theorem setProp_card (c : Card) :
    setProp (setProp (setProp (setProp [] (lit "id") (.str c.id)) (lit "word") (.str c.word))
      (lit "meaning") (.str c.meaning)) (lit "example") (.str c.example_)
      = [(lit "id", .str c.id), (lit "word", .str c.word),
          (lit "meaning", .str c.meaning), (lit "example", .str c.example_)] := by
  rfl

theorem parseValue_card (n : Nat) (c : Card) (rest : JSString) :
    parseValue (n + 6) (JSON_stringify c.toJS ++ rest) = some (c.toJS, rest) := by
  rw [stringify_card, parseValue, skipWs_cons 123 _ (by decide)]
  have hq : ∀ s r, skipWs (quote s ++ r) = quote s ++ r := by
    intro s r; rw [quote_append]; exact skipWs_cons 34 _ (by decide)
  have h0 : ∀ (s r : JSString) (acc : List (JSString × JSValue)) (m : Nat),
      (match skipWs (quote s ++ r) with
        | [] => none
        | d :: r1 => if d = 125 then some (JSValue.obj [], r1) else parseMembers m (d :: r1) acc)
      = parseMembers m (quote s ++ r) acc := by
    intro s r acc m
    rw [hq, quote_append]
    simp
  simp only [show (123 : Nat) = 34 ↔ False by decide, show (123 : Nat) = 91 ↔ False by decide,
    if_false, if_true, h0]
  rw [parseMembers_more, parseMembers_more, parseMembers_more, parseMembers_last, setProp_card]
  rfl

theorem stringifyItems_cons_cons (v w : JSValue) (vs : List JSValue) :
    stringifyItems (v :: w :: vs) = JSON_stringify v ++ 44 :: stringifyItems (w :: vs) := by
  rw [stringifyItems]

theorem stringifyItems_single (v : JSValue) : stringifyItems [v] = JSON_stringify v := by
  rw [stringifyItems]

theorem parseElements_cards (cs : List Card) :
    ∀ (c : Card) (n : Nat) (acc : List JSValue) (rest : JSString), cs.length ≤ n →
      parseElements (n + 7) (stringifyItems ((c :: cs).map Card.toJS) ++ 93 :: rest) acc
        = some (.arr (acc ++ (c :: cs).map Card.toJS), rest) := by
  induction cs with
  | nil =>
    intro c n acc rest _
    simp only [List.map_cons, List.map_nil, stringifyItems_single]
    rw [parseElements, parseValue_card]
    simp [skipWs_cons 93 _ (by decide)]
  | cons c1 cs ih =>
    intro c n acc rest hn
    obtain ⟨m, rfl⟩ : ∃ m, n = m + 1 := ⟨n - 1, by simp at hn; omega⟩
    have hm : cs.length ≤ m := by simpa using hn
    simp only [List.map_cons, stringifyItems_cons_cons, List.append_assoc, List.cons_append]
    rw [parseElements, show m + 1 + 6 = (m + 1) + 6 from rfl, parseValue_card]
    simp only [skipWs_cons 44 _ (by decide), if_true]
    have := ih c1 m (acc ++ [c.toJS]) rest hm
    simp only [List.map_cons] at this
    rw [this]
    simp

theorem stringifyItems_cards_head (c : Card) (cs : List Card) (rest : JSString) :
    ∃ tail, stringifyItems ((c :: cs).map Card.toJS) ++ rest = 123 :: tail := by
  cases cs with
  | nil =>
    simp only [List.map_cons, List.map_nil, stringifyItems_single]
    rw [stringify_card]
    exact ⟨_, rfl⟩
  | cons c1 cs =>
    simp only [List.map_cons, stringifyItems_cons_cons, List.append_assoc]
    rw [stringify_card]
    exact ⟨_, rfl⟩

theorem length_le_stringifyItems_cards (cs : List Card) :
    cs.length ≤ (stringifyItems (cs.map Card.toJS)).length := by
  induction cs with
  | nil => simp
  | cons c cs ih =>
    cases cs with
    | nil =>
      simp only [List.map_cons, List.map_nil, stringifyItems_single]
      have := stringify_card c []
      rw [List.append_nil] at this
      rw [this]; simp
    | cons c1 cs =>
      simp only [List.map_cons, stringifyItems_cons_cons] at ih ⊢
      simp only [List.length_append, List.length_cons] at ih ⊢
      omega

theorem parseValue_cards (cs : List Card) (n : Nat) (rest : JSString)
    (hn : cs.length ≤ n + 1) :
    parseValue (n + 8) (JSON_stringify (cardsJS cs) ++ rest) = some (cardsJS cs, rest) := by
  cases cs with
  | nil =>
    simp only [cardsJS, List.map_nil, JSON_stringify, stringifyItems]
    rw [parseValue]
    simp [skipWs_cons 91 _ (by decide), skipWs_cons 93 _ (by decide)]
  | cons c cs =>
    have hlen : cs.length ≤ n := by simpa using hn
    have hp := parseElements_cards cs c n [] rest hlen
    obtain ⟨tail, ht⟩ := stringifyItems_cards_head c cs (93 :: rest)
    simp only [cardsJS, JSON_stringify, List.cons_append, List.append_assoc, List.nil_append]
    rw [parseValue, skipWs_cons 91 _ (by decide)]
    rw [ht] at hp ⊢
    simp only [skipWs_cons 123 _ (by decide)]
    simpa using hp

/-- Decoding what `JSON.stringify` writes for a collection of cards gives the
collection back. -/
theorem parse_stringify_cards (cs : List Card) :
    JSON_parse (JSON_stringify (cardsJS cs)) = some (cardsJS cs) := by
  rcases List.eq_nil_or_concat cs with rfl | hne
  · rfl
  have hpos : 1 ≤ cs.length := by
    obtain ⟨l, b, rfl⟩ := hne
    simp
  have hlen : cs.length + 2 ≤ (JSON_stringify (cardsJS cs)).length := by
    have := length_le_stringifyItems_cards cs
    simp only [cardsJS, JSON_stringify, List.length_cons, List.length_append, List.length_nil]
    omega
  obtain ⟨n, hn⟩ : ∃ n, 2 * (JSON_stringify (cardsJS cs)).length + 2 = n + 8 :=
    ⟨2 * (JSON_stringify (cardsJS cs)).length + 2 - 8, by omega⟩
  have hp := parseValue_cards cs n [] (by omega)
  rw [List.append_nil] at hp
  simp [JSON_parse, hn, hp, skipWs]

/-! ## The parser consumes its input, and its bound on nesting is adequate -/

theorem skipWs_length_le (s : JSString) : (skipWs s).length ≤ s.length := by
  unfold skipWs
  exact (List.dropWhile_sublist _).length_le

theorem skipWs_eq_cons_length {s r : JSString} {c : Nat} (h : skipWs s = c :: r) :
    r.length + 1 ≤ s.length := by
  have := skipWs_length_le s
  rw [h] at this
  simpa using this

theorem consUnit_eq_some {c : Nat} {p : Option (JSString × JSString)} {x rest : JSString}
    (h : consUnit c p = some (x, rest)) : ∃ y, p = some (y, rest) := by
  cases p with
  | none => simp [consUnit] at h
  | some q =>
    obtain ⟨y, r⟩ := q
    simp only [consUnit, Option.some.injEq, Prod.mk.injEq] at h
    exact ⟨y, by rw [h.2]⟩

theorem parseStringBody_shrinks_aux : ∀ (n : Nat) (s : JSString), s.length ≤ n →
    ∀ x rest, parseStringBody s = some (x, rest) → rest.length < s.length
  | 0, s, hs => by
    intro x rest h
    have : s = [] := List.eq_nil_of_length_eq_zero (Nat.le_zero.mp hs)
    subst this
    simp [parseStringBody] at h
  | n + 1, [], _ => by
    intro x rest h
    simp [parseStringBody] at h
  | n + 1, c :: r, hs => by
    intro x rest h
    have hr : r.length ≤ n := by simpa using hs
    rw [parseStringBody_cons] at h
    split_ifs at h with h34 h92 h32
    · simp only [Option.some.injEq, Prod.mk.injEq] at h
      rw [← h.2]; simp
    · split at h
      · cases h
      · rename_i e r1
        split_ifs at h with h117
        · split at h
          · rename_i h1 h2 h3 h4 r2
            split at h
            · obtain ⟨y, hy⟩ := consUnit_eq_some h
              have := parseStringBody_shrinks_aux n r2 (by simp at hr; omega) y rest hy
              simp only [List.length_cons]; omega
            · cases h
          · cases h
        · split at h
          · obtain ⟨y, hy⟩ := consUnit_eq_some h
            have := parseStringBody_shrinks_aux n r1 (by simp at hr; omega) y rest hy
            simp only [List.length_cons]; omega
          · cases h
    · obtain ⟨y, hy⟩ := consUnit_eq_some h
      have := parseStringBody_shrinks_aux n r hr y rest hy
      simp only [List.length_cons]; omega

theorem parseStringBody_shrinks {s x rest : JSString} (h : parseStringBody s = some (x, rest)) :
    rest.length < s.length :=
  parseStringBody_shrinks_aux s.length s (Nat.le_refl _) x rest h

theorem dropWhile_length_le (p : Nat → Bool) (s : JSString) :
    (s.dropWhile p).length ≤ s.length :=
  (List.dropWhile_sublist p).length_le

theorem parseDigits_shrinks {s x rest : JSString} (h : parseDigits s = some (x, rest)) :
    rest.length ≤ s.length := by
  unfold parseDigits at h
  split_ifs at h
  simp only [Option.some.injEq, Prod.mk.injEq] at h
  rw [← h.2]
  exact dropWhile_length_le _ _

theorem parseIntPart_shrinks {s x rest : JSString} (h : parseIntPart s = some (x, rest)) :
    rest.length < s.length := by
  cases s with
  | nil => simp [parseIntPart] at h
  | cons c r =>
    simp only [parseIntPart] at h
    split_ifs at h
    · simp only [Option.some.injEq, Prod.mk.injEq] at h
      rw [← h.2]; simp
    · simp only [Option.some.injEq, Prod.mk.injEq] at h
      rw [← h.2]
      have := dropWhile_length_le isDigit r
      simp only [List.length_cons]; omega

theorem parseFrac_shrinks {s x rest : JSString} (h : parseFrac s = some (x, rest)) :
    rest.length ≤ s.length := by
  unfold parseFrac at h
  split at h
  · split at h
    · rename_i r ds rest1 hd
      simp only [Option.some.injEq, Prod.mk.injEq] at h
      have := parseDigits_shrinks hd
      rw [← h.2]; simp only [List.length_cons]; omega
    · cases h
  · simp only [Option.some.injEq, Prod.mk.injEq] at h
    rw [← h.2]

theorem parseExp_shrinks {s x rest : JSString} (h : parseExp s = some (x, rest)) :
    rest.length ≤ s.length := by
  cases s with
  | nil =>
    simp only [parseExp, Option.some.injEq, Prod.mk.injEq] at h
    rw [← h.2]
  | cons c r =>
    simp only [parseExp] at h
    split_ifs at h with he
    · split at h
      · rename_i sg r1
        split_ifs at h with hs
        · split at h
          · rename_i ds rest1 hd
            simp only [Option.some.injEq, Prod.mk.injEq] at h
            have := parseDigits_shrinks hd
            rw [← h.2]; simp only [List.length_cons]; omega
          · cases h
        · split at h
          · rename_i ds rest1 hd
            simp only [Option.some.injEq, Prod.mk.injEq] at h
            have := parseDigits_shrinks hd
            rw [← h.2]; simp only [List.length_cons] at this ⊢; omega
          · cases h
      · cases h
    · simp only [Option.some.injEq, Prod.mk.injEq] at h
      rw [← h.2]

theorem parseNumber_shrinks {s x rest : JSString} (h : parseNumber s = some (x, rest)) :
    rest.length < s.length := by
  unfold parseNumber at h
  simp only at h
  split at h
  · cases h
  · rename_i ip s2 hi
    split at h
    · cases h
    · rename_i fp s3 hf
      split at h
      · cases h
      · rename_i ep s4 he
        simp only [Option.some.injEq, Prod.mk.injEq] at h
        have h1 := parseIntPart_shrinks hi
        have h2 := parseFrac_shrinks hf
        have h3 := parseExp_shrinks he
        rw [← h.2]
        have h4 : (match s with
            | 45 :: r => (([45] : JSString), r)
            | _ => ([], s)).2.length ≤ s.length := by
          split
          · simp
          · simp
        omega

theorem parse_shrinks : ∀ n : Nat,
    (∀ s v rest, parseValue n s = some (v, rest) → rest.length < s.length) ∧
    (∀ s acc v rest, parseElements n s acc = some (v, rest) → rest.length < s.length) ∧
    (∀ s acc v rest, parseMembers n s acc = some (v, rest) → rest.length < s.length)
  | 0 => by
    refine ⟨?_, ?_, ?_⟩
    · intro s v rest h; simp [parseValue] at h
    · intro s acc v rest h; simp [parseElements] at h
    · intro s acc v rest h; simp [parseMembers] at h
  | n + 1 => by
    obtain ⟨ihV, ihE, ihM⟩ := parse_shrinks n
    refine ⟨?_, ?_, ?_⟩
    · intro s v rest h
      rw [parseValue] at h
      split at h
      · cases h
      · rename_i c r hsk
        have hlen := skipWs_eq_cons_length hsk
        split_ifs at h with h34 h91 h123 hnum hnull htrue hfalse
        · split at h
          · rename_i x rest1 hx
            simp only [Option.some.injEq, Prod.mk.injEq] at h
            have := parseStringBody_shrinks hx
            rw [← h.2]; omega
          · cases h
        · split at h
          · cases h
          · rename_i d r1 hsk1
            have hlen1 := skipWs_eq_cons_length hsk1
            split_ifs at h with h93
            · simp only [Option.some.injEq, Prod.mk.injEq] at h
              rw [← h.2]; omega
            · have := ihE _ _ _ _ h
              simp only [List.length_cons] at this; omega
        · split at h
          · cases h
          · rename_i d r1 hsk1
            have hlen1 := skipWs_eq_cons_length hsk1
            split_ifs at h with h125
            · simp only [Option.some.injEq, Prod.mk.injEq] at h
              rw [← h.2]; omega
            · have := ihM _ _ _ _ h
              simp only [List.length_cons] at this; omega
        · split at h
          · rename_i text rest1 hx
            simp only [Option.some.injEq, Prod.mk.injEq] at h
            have := parseNumber_shrinks hx
            simp only [List.length_cons] at this
            rw [← h.2]; omega
          · cases h
        · simp only [Option.some.injEq, Prod.mk.injEq] at h
          rw [← h.2]; simp only [List.length_drop, List.length_cons]; omega
        · simp only [Option.some.injEq, Prod.mk.injEq] at h
          rw [← h.2]; simp only [List.length_drop, List.length_cons]; omega
        · simp only [Option.some.injEq, Prod.mk.injEq] at h
          rw [← h.2]; simp only [List.length_drop, List.length_cons]; omega
    · intro s acc v rest h
      rw [parseElements] at h
      split at h
      · cases h
      · rename_i v1 rest1 hv
        have h1 := ihV _ _ _ hv
        split at h
        · cases h
        · rename_i c r hsk
          have hlen := skipWs_eq_cons_length hsk
          split_ifs at h with h44 h93
          · have := ihE _ _ _ _ h; omega
          · simp only [Option.some.injEq, Prod.mk.injEq] at h
            rw [← h.2]; omega
    · intro s acc v rest h
      rw [parseMembers] at h
      split at h
      · cases h
      · rename_i q r0 hsk0
        have hlen0 := skipWs_eq_cons_length hsk0
        split_ifs at h with h34
        split at h
        · cases h
        · rename_i k r1 hk
          have hl1 := parseStringBody_shrinks hk
          split at h
          · cases h
          · rename_i colon r2 hsk2
            have hlen2 := skipWs_eq_cons_length hsk2
            split_ifs at h with h58
            split at h
            · cases h
            · rename_i v1 rest1 hv
              have h1 := ihV _ _ _ hv
              split at h
              · cases h
              · rename_i c r hsk
                have hlen := skipWs_eq_cons_length hsk
                split_ifs at h with h44 h125
                · have := ihM _ _ _ _ h; omega
                · simp only [Option.some.injEq, Prod.mk.injEq] at h
                  rw [← h.2]; omega

theorem parse_fuel : ∀ n : Nat,
    (∀ m s, 2 * s.length + 2 ≤ n → 2 * s.length + 2 ≤ m → parseValue n s = parseValue m s) ∧
    (∀ m s acc, 2 * s.length + 3 ≤ n → 2 * s.length + 3 ≤ m →
      parseElements n s acc = parseElements m s acc) ∧
    (∀ m s acc, 2 * s.length + 3 ≤ n → 2 * s.length + 3 ≤ m →
      parseMembers n s acc = parseMembers m s acc)
  | 0 => by
    refine ⟨?_, ?_, ?_⟩ <;> intros <;> omega
  | n + 1 => by
    obtain ⟨ihV, ihE, ihM⟩ := parse_fuel n
    refine ⟨?_, ?_, ?_⟩
    · intro m s hn hm
      obtain ⟨m1, rfl⟩ : ∃ m1, m = m1 + 1 := ⟨m - 1, by omega⟩
      rw [parseValue, parseValue]
      cases hsk : skipWs s with
      | nil => rfl
      | cons c r =>
        have hlen := skipWs_eq_cons_length hsk
        simp only []
        split_ifs with h34 h91 h123
        · rfl
        · cases hsk1 : skipWs r with
          | nil => rfl
          | cons d r1 =>
            have hlen1 := skipWs_eq_cons_length hsk1
            simp only []
            split_ifs with h93
            · rfl
            · exact ihE m1 _ _ (by simp only [List.length_cons]; omega)
                (by simp only [List.length_cons]; omega)
        · cases hsk1 : skipWs r with
          | nil => rfl
          | cons d r1 =>
            have hlen1 := skipWs_eq_cons_length hsk1
            simp only []
            split_ifs with h125
            · rfl
            · exact ihM m1 _ _ (by simp only [List.length_cons]; omega)
                (by simp only [List.length_cons]; omega)
        all_goals rfl
    · intro m s acc hn hm
      obtain ⟨m1, rfl⟩ : ∃ m1, m = m1 + 1 := ⟨m - 1, by omega⟩
      rw [parseElements, parseElements, ihV m1 s (by omega) (by omega)]
      cases hv : parseValue m1 s with
      | none => rfl
      | some p =>
        obtain ⟨v, rest⟩ := p
        have h1 := (parse_shrinks m1).1 _ _ _ hv
        simp only []
        cases hsk : skipWs rest with
        | nil => rfl
        | cons c r =>
          have hlen := skipWs_eq_cons_length hsk
          simp only []
          split_ifs with h44
          · exact ihE m1 _ _ (by omega) (by omega)
          all_goals rfl
    · intro m s acc hn hm
      obtain ⟨m1, rfl⟩ : ∃ m1, m = m1 + 1 := ⟨m - 1, by omega⟩
      rw [parseMembers, parseMembers]
      cases hsk0 : skipWs s with
      | nil => rfl
      | cons q r0 =>
        have hlen0 := skipWs_eq_cons_length hsk0
        simp only []
        split_ifs with h34
        · cases hk : parseStringBody r0 with
          | none => rfl
          | some p =>
            obtain ⟨k, r1⟩ := p
            have hl1 := parseStringBody_shrinks hk
            simp only []
            cases hsk2 : skipWs r1 with
            | nil => rfl
            | cons colon r2 =>
              have hlen2 := skipWs_eq_cons_length hsk2
              simp only []
              split_ifs with h58
              · rw [ihV m1 r2 (by omega) (by omega)]
                cases hv : parseValue m1 r2 with
                | none => rfl
                | some p =>
                  obtain ⟨v, rest⟩ := p
                  have h1 := (parse_shrinks m1).1 _ _ _ hv
                  simp only []
                  cases hsk : skipWs rest with
                  | nil => rfl
                  | cons c r =>
                    have hlen := skipWs_eq_cons_length hsk
                    simp only []
                    split_ifs with h44
                    · exact ihM m1 _ _ (by omega) (by omega)
                    all_goals rfl
              · rfl
        · rfl

/-- The bound on nesting that `JSON_parse` passes is never what makes it
fail: any larger bound gives the same result. -/
theorem parseValue_fuel (text : JSString) (n : Nat) (h : 2 * text.length + 2 ≤ n) :
    parseValue n text = parseValue (2 * text.length + 2) text :=
  (parse_fuel n).1 _ text h (Nat.le_refl _)

/-! ## What the handlers do -/

theorem since_eq (w1 w : World) (l : List Effect) (h : w1.log = w.log ++ l) :
    w1.since w = l := by
  simp [World.since, h]

theorem JSON_parse_nil : JSON_parse [] = none := by rfl

theorem stringify_cards_ne_nil (cs : List Card) : JSON_stringify (cardsJS cs) ≠ [] := by
  intro h0
  have hp := parse_stringify_cards cs
  rw [h0, JSON_parse_nil] at hp
  cases hp

theorem cardsJS_append (cs : List Card) (c : Card) :
    cardsJS (cs ++ [c]) = .arr (cs.map Card.toJS ++ [c.toJS]) := by
  simp [cardsJS]

theorem toJS_injective (a b : Card) (h : a.toJS = b.toJS) : a = b := by
  cases a
  cases b
  simp only [Card.toJS, JSValue.obj.injEq, List.cons.injEq, Prod.mk.injEq, JSValue.str.injEq,
    true_and, and_true] at h
  obtain ⟨h1, h2, h3, h4⟩ := h
  subst h1 h2 h3 h4
  rfl

theorem cardsJS_injective (a b : List Card) (h : cardsJS a = cardsJS b) : a = b := by
  simp only [cardsJS, JSValue.arr.injEq] at h
  exact List.map_injective_iff.mpr (fun x y hxy => toJS_injective x y hxy) h

/-- What a valid add does when neither storage call rejects, on a world whose
stored payload decodes to the array `items`. -/
theorem handleAddCard_ok (f : Faults) (now : Nat) (word meaning example_ : JSString)
    (w : World) (items : List JSValue) (hg : f.getItem = false) (hs : f.setItem = false)
    (hw : trim word ≠ []) (hm : trim meaning ≠ [])
    (hst : (w.storage "vocabCards" = none ∧ items = []) ∨
      ∃ text, w.storage "vocabCards" = some text ∧ JSON_parse text = some (.arr items)) :
    handleAddCard f now word meaning example_ w =
      { storage := fun k => if k = "vocabCards" then
          some (JSON_stringify (.arr (items ++
            [Card.toJS ⟨decimal now, trim word, trim meaning, trim example_⟩]))) else w.storage k
        task := w.task
        log := w.log ++ [Effect.getItem "vocabCards",
          Effect.setItem "vocabCards" (JSON_stringify (.arr (items ++
            [Card.toJS ⟨decimal now, trim word, trim meaning, trim example_⟩]))),
          Effect.alert "Success" "Card added successfully"] } := by
  rcases hst with ⟨h0, rfl⟩ | ⟨text, h0, hp⟩
  · simp [handleAddCard, hw, hm, AsyncStorage_getItem, AsyncStorage_setItem, hg, hs, h0, push,
      Alert_alert, World.emit]
  · have hne : text ≠ [] := by
      rintro rfl
      rw [JSON_parse_nil] at hp
      cases hp
    simp [handleAddCard, hw, hm, AsyncStorage_getItem, AsyncStorage_setItem, hg, hs, h0, push,
      Alert_alert, World.emit, hne, hp]

theorem getId_card (c : Card) : getId c.toJS = some (some (.str c.id)) := by
  rfl

theorem filterCards_cards (id : JSString) (cs : List Card) :
    filterCards id (cs.map Card.toJS) = some ((withoutId id cs).map Card.toJS) := by
  induction cs with
  | nil => rfl
  | cons c cs ih =>
    simp only [withoutId] at ih
    simp only [List.map_cons, filterCards, getId_card, ih, idDiffers, withoutId,
      List.filter_cons]
    by_cases h : c.id = id <;> simp [h]

/-- What `deleteCard` does on a collection of cards when the write does not
reject. -/
theorem deleteCard_ok (f : Faults) (id : JSString) (cs : List Card) (w : World)
    (hs : f.setItem = false) :
    deleteCard f id (cardsJS cs) w =
      (cardsJS (withoutId id cs),
        { storage := fun k => if k = "vocabCards" then
            some (JSON_stringify (cardsJS (withoutId id cs))) else w.storage k
          task := w.task
          log := w.log ++ [Effect.setItem "vocabCards"
              (JSON_stringify (cardsJS (withoutId id cs))),
            Effect.alert "Success" "Card deleted successfully"] }) := by
  simp [deleteCard, cardsJS, filterCards_cards, AsyncStorage_setItem, hs, Alert_alert,
    World.emit]

/-- What `deleteCard` does when the write rejects: either the filter threw
and only the alert was issued, or the write was issued and then the alert. -/
theorem deleteCard_rejected_cases (f : Faults) (id : JSString) (cards : JSValue) (w : World)
    (hs : f.setItem = true) :
    deleteCard f id cards w = (cards, w.emit (Effect.alert "Error" "Failed to delete card")) ∨
      ∃ kept, deleteCard f id cards w =
        (cards, (w.emit (Effect.setItem "vocabCards" (JSON_stringify (.arr kept)))).emit
          (Effect.alert "Error" "Failed to delete card")) := by
  unfold deleteCard
  generalize (match cards with
    | .arr items => filterCards id items
    | _ => none : Option (List JSValue)) = filtered
  cases filtered with
  | none => exact Or.inl rfl
  | some kept =>
    refine Or.inr ⟨kept, ?_⟩
    simp [AsyncStorage_setItem, hs, Alert_alert]

/-- What `loadCards` does on a payload written for a collection of cards. -/
theorem loadCards_ok (f : Faults) (cards : JSValue) (w : World) (cs : List Card)
    (hg : f.getItem = false)
    (hst : w.storage "vocabCards" = some (JSON_stringify (cardsJS cs))) :
    loadCards f cards w = (cardsJS cs, w.emit (Effect.getItem "vocabCards")) := by
  simp [loadCards, AsyncStorage_getItem, hg, hst, stringify_cards_ne_nil,
    parse_stringify_cards]

/-- What `loadCards` does on a non-empty payload that `JSON.parse` rejects. -/
theorem loadCards_undecodable (f : Faults) (text : JSString) (cards : JSValue) (w : World)
    (hst : w.storage "vocabCards" = some text) (hne : text ≠ [])
    (hp : JSON_parse text = none) :
    loadCards f cards w = (cards,
      { w with log := w.log ++ [Effect.getItem "vocabCards",
        Effect.consoleError "Error loading cards:",
        Effect.alert "Error" "Failed to load vocabulary cards"] }) := by
  cases hf : f.getItem <;>
    simp [loadCards, AsyncStorage_getItem, hf, hst, hne, hp, Alert_alert, console_error,
      World.emit]

/-- What `handleAddCard` does on a non-empty payload that `JSON.parse`
rejects: the validation alert, or the read followed by the failure alert. -/
theorem handleAddCard_undecodable (g : Faults) (text : JSString) (now : Nat)
    (word meaning example_ : JSString) (w : World)
    (hst : w.storage "vocabCards" = some text) (hne : text ≠ [])
    (hp : JSON_parse text = none) :
    handleAddCard g now word meaning example_ w =
        { w with log := w.log ++ [Effect.alert "Error" "Please fill in both word and meaning"] }
      ∨ handleAddCard g now word meaning example_ w =
        { w with log := w.log ++ [Effect.getItem "vocabCards",
          Effect.alert "Error" "Failed to add card"] } := by
  by_cases hv : trim word = [] ∨ trim meaning = []
  · left
    simp [handleAddCard, hv, Alert_alert, World.emit]
  · right
    cases hg : g.getItem <;>
      simp [handleAddCard, hv, AsyncStorage_getItem, hg, hst, hne, hp, Alert_alert, World.emit]

/-- What `trim` returns is its argument without the leading and trailing
whitespace. -/
theorem trim_trimmed (s : JSString) : Trimmed s (trim s) := by
  have h1 := List.takeWhile_append_dropWhile isTrimUnit s
  have h2 := List.takeWhile_append_dropWhile isTrimUnit (s.dropWhile isTrimUnit).reverse
  have hm : s.dropWhile isTrimUnit =
      trim s ++ ((s.dropWhile isTrimUnit).reverse.takeWhile isTrimUnit).reverse := by
    have := congrArg List.reverse h2
    rw [List.reverse_append, List.reverse_reverse] at this
    exact this.symm
  refine ⟨⟨s.takeWhile isTrimUnit,
      ((s.dropWhile isTrimUnit).reverse.takeWhile isTrimUnit).reverse, ?_, ?_, ?_⟩, ?_, ?_⟩
  · rw [List.append_assoc, ← hm, h1]
  · intro c hc
    exact List.mem_takeWhile_imp hc
  · intro c hc
    exact List.mem_takeWhile_imp (List.mem_reverse.mp hc)
  · intro c hc
    have hne : trim s ≠ [] := by
      intro h0; rw [h0] at hc; cases hc
    have hhead : (s.dropWhile isTrimUnit).head? = some c := by
      rw [hm, List.head?_append_of_ne_nil _ hne]; exact hc
    have := List.head?_dropWhile_not isTrimUnit s
    rw [hhead] at this
    simpa using this
  · intro c hc
    have hhead : ((s.dropWhile isTrimUnit).reverse.dropWhile isTrimUnit).head? = some c := by
      rw [← List.getLast?_reverse]; exact hc
    have := List.head?_dropWhile_not isTrimUnit (s.dropWhile isTrimUnit).reverse
    rw [hhead] at this
    simpa using this

theorem dropWhile_whitespace_append (pre rest : JSString)
    (hpre : ∀ c ∈ pre, isTrimUnit c = true)
    (hrest : ∀ c, rest.head? = some c → isTrimUnit c = false) :
    (pre ++ rest).dropWhile isTrimUnit = rest := by
  induction pre with
  | nil =>
    cases rest with
    | nil => rfl
    | cons c r => simp [List.dropWhile, hrest c rfl]
  | cons a pre ih =>
    simp only [List.cons_append, List.dropWhile, hpre a (List.mem_cons_self _ _)]
    exact ih (fun c hc => hpre c (List.mem_cons_of_mem _ hc))

/-- The strings `Trimmed` relates to `s` are one: what `trim s` returns. -/
theorem trimmed_unique (s t : JSString) (h : Trimmed s t) : t = trim s := by
  obtain ⟨⟨pre, post, hs, hpre, hpost⟩, hhead, hlast⟩ := h
  by_cases ht : t = []
  · subst ht
    have hall : ∀ c ∈ s, isTrimUnit c = true := by
      intro c hc
      rw [hs] at hc
      simp only [List.append_nil, List.mem_append] at hc
      rcases hc with hc | hc
      · exact hpre c hc
      · exact hpost c hc
    have : s.dropWhile isTrimUnit = [] := List.dropWhile_eq_nil_iff.mpr hall
    simp [trim, this]
  · have h1 : s.dropWhile isTrimUnit = t ++ post := by
      rw [hs, List.append_assoc]
      apply dropWhile_whitespace_append pre (t ++ post) hpre
      intro c hc
      rw [List.head?_append_of_ne_nil _ ht] at hc
      exact hhead c hc
    have h2 : (post.reverse ++ t.reverse).dropWhile isTrimUnit = t.reverse := by
      apply dropWhile_whitespace_append post.reverse t.reverse
      · intro c hc
        exact hpost c (List.mem_reverse.mp hc)
      · intro c hc
        rw [List.head?_reverse] at hc
        exact hlast c hc
    simp [trim, h1, h2]

/-! ## Card store: add -/

/-- C1: when the trimmed word or the trimmed meaning is empty, `handleAddCard`
issues the validation alert and nothing else: no effect of the call is a
storage read or write, and the storage, hence the collection under
`vocabCards`, is what it was before the call. -/
theorem handleAddCard_rejects_blank (f : Faults) (now : Nat) (word meaning example_ : JSString)
    (w : World) (h : trim word = [] ∨ trim meaning = []) :
    (handleAddCard f now word meaning example_ w).since w
        = [Effect.alert "Error" "Please fill in both word and meaning"]
      ∧ (∀ e ∈ (handleAddCard f now word meaning example_ w).since w, e.isStorageCall = false)
      ∧ (handleAddCard f now word meaning example_ w).storage = w.storage := by
  have hw : handleAddCard f now word meaning example_ w
      = w.emit (Effect.alert "Error" "Please fill in both word and meaning") := by
    simp [handleAddCard, h, Alert_alert]
  rw [hw, since_eq _ w [Effect.alert "Error" "Please fill in both word and meaning"] rfl]
  refine ⟨rfl, ?_, rfl⟩
  intro e he
  simp only [List.mem_singleton] at he
  subst he
  rfl

/-- C1 at a whitespace-only word on the sample world. -/
theorem handleAddCard_rejects_blank_witness :
    (trim (lit " \n ") = [] ∨ trim (lit "chat") = []) ∧
    ((handleAddCard noFaults 5 (lit " \n ") (lit "chat") [] catWorld).since catWorld
        = [Effect.alert "Error" "Please fill in both word and meaning"]
      ∧ (∀ e ∈ (handleAddCard noFaults 5 (lit " \n ") (lit "chat") [] catWorld).since catWorld,
          e.isStorageCall = false)
      ∧ (handleAddCard noFaults 5 (lit " \n ") (lit "chat") [] catWorld).storage
          = catWorld.storage) :=
  ⟨Or.inl (by decide),
    handleAddCard_rejects_blank noFaults 5 (lit " \n ") (lit "chat") [] catWorld
      (Or.inl (by decide))⟩

/-- C2: on a storage that holds the collection `cs`, an add with non-empty
trimmed word and meaning whose read and write succeed reports success and
persists `cs` followed by one new record whose word, meaning and example are
the inputs without their leading and trailing whitespace; the prior records
keep their positions and the length grows by one. -/
theorem handleAddCard_appends (f : Faults) (now : Nat) (word meaning example_ : JSString)
    (w : World) (cs : List Card) (hg : f.getItem = false) (hs : f.setItem = false)
    (hw : trim word ≠ []) (hm : trim meaning ≠ []) (hst : StoredCards w cs) :
    (handleAddCard f now word meaning example_ w).since w =
        [Effect.getItem "vocabCards",
          Effect.setItem "vocabCards" (JSON_stringify (cardsJS
            (cs ++ [⟨decimal now, trim word, trim meaning, trim example_⟩]))),
          Effect.alert "Success" "Card added successfully"]
      ∧ StoredCards (handleAddCard f now word meaning example_ w)
          (cs ++ [⟨decimal now, trim word, trim meaning, trim example_⟩])
      ∧ (cs ++ [(⟨decimal now, trim word, trim meaning, trim example_⟩ : Card)]).length
          = cs.length + 1
      ∧ (cs ++ [(⟨decimal now, trim word, trim meaning, trim example_⟩ : Card)]).take cs.length
          = cs
      ∧ (∃ newCard : Card,
          StoredCards (handleAddCard f now word meaning example_ w) (cs ++ [newCard])
            ∧ Trimmed word newCard.word ∧ Trimmed meaning newCard.meaning
            ∧ Trimmed example_ newCard.example_) := by
  have hst1 : (w.storage "vocabCards" = none ∧ cs.map Card.toJS = []) ∨
      ∃ text, w.storage "vocabCards" = some text ∧
        JSON_parse text = some (.arr (cs.map Card.toJS)) := by
    rcases hst with ⟨h0, rfl⟩ | h
    · exact Or.inl ⟨h0, rfl⟩
    · exact Or.inr h
  have h := handleAddCard_ok f now word meaning example_ w (cs.map Card.toJS) hg hs hw hm hst1
  rw [← cardsJS_append] at h
  have hstored : StoredCards (handleAddCard f now word meaning example_ w)
      (cs ++ [⟨decimal now, trim word, trim meaning, trim example_⟩]) := by
    refine Or.inr ⟨_, ?_, parse_stringify_cards _⟩
    rw [h]
    simp
  refine ⟨?_, hstored, by simp, by simp, ?_⟩
  · exact since_eq _ _ _ (by rw [h])
  · exact ⟨⟨decimal now, trim word, trim meaning, trim example_⟩, hstored,
      trim_trimmed word, trim_trimmed meaning, trim_trimmed example_⟩

/-- C2 at an add, at clock value 1000, of the word "dog" surrounded by every
whitespace unit, the meaning " chien" followed by a line feed and a tab as
example, on the world that stores the sample card: the collection stored
afterwards is the sample card followed by the card "1000", "dog", "chien"
with an empty example. -/
theorem handleAddCard_appends_witness :
    (noFaults.getItem = false ∧ noFaults.setItem = false ∧ trim paddedDog ≠ [] ∧
      trim (lit " chien\n") ≠ [] ∧ StoredCards catWorld [catCard]) ∧
    ((handleAddCard noFaults 1000 paddedDog (lit " chien\n") (lit "\t") catWorld).since catWorld =
        [Effect.getItem "vocabCards",
          Effect.setItem "vocabCards" (JSON_stringify (cardsJS
            [catCard, ⟨lit "1000", lit "dog", lit "chien", []⟩])),
          Effect.alert "Success" "Card added successfully"]
      ∧ StoredCards (handleAddCard noFaults 1000 paddedDog (lit " chien\n") (lit "\t") catWorld)
          [catCard, ⟨lit "1000", lit "dog", lit "chien", []⟩]) :=
  ⟨⟨rfl, rfl, by decide, by decide, Or.inr ⟨_, rfl, rfl⟩⟩,
    (handleAddCard_appends noFaults 1000 paddedDog (lit " chien\n") (lit "\t") catWorld [catCard]
      rfl rfl (by decide) (by decide) (Or.inr ⟨_, rfl, rfl⟩)).1,
    (handleAddCard_appends noFaults 1000 paddedDog (lit " chien\n") (lit "\t") catWorld [catCard]
      rfl rfl (by decide) (by decide) (Or.inr ⟨_, rfl, rfl⟩)).2.1⟩

/-- C3: two successive valid adds that read the same clock value 1000 leave
a collection whose two records both carry the id "1000": the ids of the
resulting collection are not pairwise distinct. -/
theorem handleAddCard_same_clock_same_id :
    StoredCards
        (handleAddCard noFaults 1000 (lit "dog") (lit "chien") []
          (handleAddCard noFaults 1000 (lit "cat") (lit "chat") [] emptyWorld))
        [⟨lit "1000", lit "cat", lit "chat", []⟩, ⟨lit "1000", lit "dog", lit "chien", []⟩]
      ∧ ¬ (([⟨lit "1000", lit "cat", lit "chat", []⟩,
            ⟨lit "1000", lit "dog", lit "chien", []⟩] : List Card).map Card.id).Nodup :=
  ⟨Or.inr ⟨_, rfl, rfl⟩, by decide⟩

/-! ## Card store: remove and list -/

/-- C4: when the write succeeds, `deleteCard(id)` on a list holding the
collection `cs` reports success, leaves in memory and in storage the
collection without the records that carry `id`, none of whose records has
that id, and a following `loadCards` whose read succeeds returns that same
collection. -/
theorem deleteCard_removes_id (f g : Faults) (id : JSString) (cs : List Card) (w : World)
    (cards0 : JSValue) (hs : f.setItem = false) (hg : g.getItem = false) :
    (∀ c ∈ withoutId id cs, c.id ≠ id)
      ∧ (deleteCard f id (cardsJS cs) w).1 = cardsJS (withoutId id cs)
      ∧ StoredCards (deleteCard f id (cardsJS cs) w).2 (withoutId id cs)
      ∧ (loadCards g cards0 (deleteCard f id (cardsJS cs) w).2).1 = cardsJS (withoutId id cs)
      ∧ (deleteCard f id (cardsJS cs) w).2.since w =
          [Effect.setItem "vocabCards" (JSON_stringify (cardsJS (withoutId id cs))),
            Effect.alert "Success" "Card deleted successfully"] := by
  have h := deleteCard_ok f id cs w hs
  refine ⟨?_, ?_, ?_, ?_, ?_⟩
  · intro c hc
    simpa [withoutId] using (List.mem_filter.mp hc).2
  · rw [h]
  · refine Or.inr ⟨_, ?_, parse_stringify_cards _⟩
    rw [h]; simp
  · rw [loadCards_ok g cards0 _ (withoutId id cs) hg (by rw [h]; simp)]
  · exact since_eq _ _ _ (by rw [h])

/-- C4 at the removal of the sample card from the world that stores it. -/
theorem deleteCard_removes_id_witness :
    (noFaults.setItem = false ∧ noFaults.getItem = false) ∧
    (deleteCard noFaults (lit "1") (cardsJS [catCard]) catWorld).1
        = cardsJS (withoutId (lit "1") [catCard])
      ∧ (loadCards noFaults (cardsJS [catCard])
          (deleteCard noFaults (lit "1") (cardsJS [catCard]) catWorld).2).1
        = cardsJS (withoutId (lit "1") [catCard])
      ∧ withoutId (lit "1") [catCard] = [] :=
  ⟨⟨rfl, rfl⟩,
    (deleteCard_removes_id noFaults noFaults (lit "1") [catCard] catWorld (cardsJS [catCard])
      rfl rfl).2.1,
    (deleteCard_removes_id noFaults noFaults (lit "1") [catCard] catWorld (cardsJS [catCard])
      rfl rfl).2.2.2.1,
    by decide⟩

/-- C5, as the claim states it, fails: on the world that stores the sample
card, whose id is "1", `deleteCard("2")` issues the write and the success
alert, and no error. -/
theorem deleteCard_unknown_id_reports_success :
    (∀ c ∈ [catCard], c.id ≠ lit "2") ∧
    (deleteCard noFaults (lit "2") (cardsJS [catCard]) catWorld).2.log =
      [Effect.setItem "vocabCards" (JSON_stringify (cardsJS [catCard])),
        Effect.alert "Success" "Card deleted successfully"] := by
  decide

/-- C5 amended: for an id that no record of the collection `cs` carries,
`deleteCard(id)` whose write succeeds writes the same collection back and
reports success; the list in memory is unchanged and the storage holds `cs`
after the call. -/
theorem deleteCard_unknown_id (f : Faults) (id : JSString) (cs : List Card) (w : World)
    (hs : f.setItem = false) (hid : ∀ c ∈ cs, c.id ≠ id) :
    (deleteCard f id (cardsJS cs) w).2.since w =
        [Effect.setItem "vocabCards" (JSON_stringify (cardsJS cs)),
          Effect.alert "Success" "Card deleted successfully"]
      ∧ (deleteCard f id (cardsJS cs) w).1 = cardsJS cs
      ∧ StoredCards (deleteCard f id (cardsJS cs) w).2 cs := by
  have hf : withoutId id cs = cs := by
    rw [withoutId, List.filter_eq_self]
    intro c hc
    simpa using hid c hc
  have h := deleteCard_ok f id cs w hs
  rw [hf] at h
  refine ⟨since_eq _ _ _ (by rw [h]), by rw [h], ?_⟩
  refine Or.inr ⟨_, ?_, parse_stringify_cards cs⟩
  rw [h]; simp

/-- C5 amended, at `deleteCard("2")` on the world that stores the sample
card. -/
theorem deleteCard_unknown_id_witness :
    (noFaults.setItem = false ∧ ∀ c ∈ [catCard], c.id ≠ lit "2") ∧
    ((deleteCard noFaults (lit "2") (cardsJS [catCard]) catWorld).2.since catWorld =
        [Effect.setItem "vocabCards" (JSON_stringify (cardsJS [catCard])),
          Effect.alert "Success" "Card deleted successfully"]
      ∧ (deleteCard noFaults (lit "2") (cardsJS [catCard]) catWorld).1 = cardsJS [catCard]
      ∧ StoredCards (deleteCard noFaults (lit "2") (cardsJS [catCard]) catWorld).2 [catCard]) :=
  ⟨⟨rfl, by decide⟩,
    deleteCard_unknown_id noFaults (lit "2") [catCard] catWorld rfl (by decide)⟩

/-- C6, as the claim states it, fails at the empty payload: `JSON.parse`
rejects it, yet `loadCards` replaces a list holding the sample card with the
empty list and reports nothing, and a valid add overwrites the payload and
reports success. -/
theorem empty_payload_is_dropped :
    blankWorld.storage "vocabCards" = some [] ∧ JSON_parse [] = none
      ∧ (loadCards noFaults (cardsJS [catCard]) blankWorld).1 = JSValue.arr []
      ∧ (loadCards noFaults (cardsJS [catCard]) blankWorld).2.log
          = [Effect.getItem "vocabCards"]
      ∧ (handleAddCard noFaults 1 (lit "cat") (lit "chat") [] blankWorld).storage "vocabCards"
          = some (JSON_stringify (cardsJS [catCard]))
      ∧ (handleAddCard noFaults 1 (lit "cat") (lit "chat") [] blankWorld).log
          = [Effect.getItem "vocabCards",
              Effect.setItem "vocabCards" (JSON_stringify (cardsJS [catCard])),
              Effect.alert "Success" "Card added successfully"] :=
  ⟨rfl, rfl, rfl, rfl, rfl, rfl⟩

/-- C6 amended: for every non-empty stored payload that `JSON.parse` rejects,
`loadCards` issues the error alert and leaves the list in memory and the
storage as they were, and `handleAddCard` issues an error alert and leaves
the storage as it was. -/
theorem undecodable_payload_is_reported (f g : Faults) (text : JSString) (cards : JSValue)
    (now : Nat) (word meaning example_ : JSString) (w : World)
    (hst : w.storage "vocabCards" = some text) (hne : text ≠ [])
    (hp : JSON_parse text = none) :
    (loadCards f cards w).1 = cards
      ∧ Effect.alert "Error" "Failed to load vocabulary cards" ∈ (loadCards f cards w).2.since w
      ∧ (loadCards f cards w).2.storage = w.storage
      ∧ (∃ message, Effect.alert "Error" message ∈
          (handleAddCard g now word meaning example_ w).since w)
      ∧ (handleAddCard g now word meaning example_ w).storage = w.storage := by
  have hl := loadCards_undecodable f text cards w hst hne hp
  have ha := handleAddCard_undecodable g text now word meaning example_ w hst hne hp
  refine ⟨by rw [hl], ?_, by rw [hl], ?_, ?_⟩
  · rw [hl, since_eq _ w _ rfl]; simp
  · rcases ha with h | h
    · exact ⟨"Please fill in both word and meaning", by rw [h, since_eq _ w _ rfl]; simp⟩
    · exact ⟨"Failed to add card", by rw [h, since_eq _ w _ rfl]; simp⟩
  · rcases ha with h | h <;> rw [h]

/-- C6 amended, at the truncated payload `[oops`. -/
theorem undecodable_payload_is_reported_witness :
    (garbledWorld.storage "vocabCards" = some (lit "[oops") ∧ lit "[oops" ≠ [] ∧
      JSON_parse (lit "[oops") = none) ∧
    ((loadCards noFaults (cardsJS [catCard]) garbledWorld).1 = cardsJS [catCard]
      ∧ Effect.alert "Error" "Failed to load vocabulary cards" ∈
          (loadCards noFaults (cardsJS [catCard]) garbledWorld).2.since garbledWorld
      ∧ (loadCards noFaults (cardsJS [catCard]) garbledWorld).2.storage = garbledWorld.storage
      ∧ (∃ message, Effect.alert "Error" message ∈
          (handleAddCard noFaults 1 (lit "cat") (lit "chat") [] garbledWorld).since garbledWorld)
      ∧ (handleAddCard noFaults 1 (lit "cat") (lit "chat") [] garbledWorld).storage
          = garbledWorld.storage) :=
  ⟨⟨rfl, by decide, rfl⟩,
    undecodable_payload_is_reported noFaults noFaults (lit "[oops") (cardsJS [catCard]) 1
      (lit "cat") (lit "chat") [] garbledWorld rfl (by decide) rfl⟩

/-- C7: decoding with `JSON.parse` what `JSON.stringify` writes for a
collection of cards gives the collection back, so `loadCards`, on a storage
holding that payload and a read that succeeds, puts in memory exactly the
cards written, in the same order and with the same fields. -/
theorem loadCards_reads_back (f : Faults) (cards : JSValue) (w : World) (cs : List Card)
    (hg : f.getItem = false)
    (hst : w.storage "vocabCards" = some (JSON_stringify (cardsJS cs))) :
    JSON_parse (JSON_stringify (cardsJS cs)) = some (cardsJS cs)
      ∧ (loadCards f cards w).1 = cardsJS cs
      ∧ ∀ cs1, (loadCards f cards w).1 = cardsJS cs1 → cs1 = cs := by
  have h := loadCards_ok f cards w cs hg hst
  refine ⟨parse_stringify_cards cs, by rw [h], ?_⟩
  intro cs1 h1
  rw [h] at h1
  exact (cardsJS_injective _ _ h1).symm

/-- C7 at the world that stores the sample card, read into an empty list. -/
theorem loadCards_reads_back_witness :
    (noFaults.getItem = false ∧
      catWorld.storage "vocabCards" = some (JSON_stringify (cardsJS [catCard]))) ∧
    (JSON_parse (JSON_stringify (cardsJS [catCard])) = some (cardsJS [catCard])
      ∧ (loadCards noFaults (JSValue.arr []) catWorld).1 = cardsJS [catCard]
      ∧ ∀ cs1, (loadCards noFaults (JSValue.arr []) catWorld).1 = cardsJS cs1 →
          cs1 = [catCard]) :=
  ⟨⟨rfl, rfl⟩, loadCards_reads_back noFaults (JSValue.arr []) catWorld [catCard] rfl rfl⟩

/-- C8: when the storage write rejects, `deleteCard` leaves the list in
memory and the storage as they were, so a list that held the stored
collection still does, and it issues the error alert and no success alert. -/
theorem deleteCard_write_rejected (f : Faults) (id : JSString) (cards : JSValue) (w : World)
    (hs : f.setItem = true) :
    (deleteCard f id cards w).1 = cards
      ∧ (deleteCard f id cards w).2.storage = w.storage
      ∧ (∀ cs, cards = cardsJS cs → StoredCards w cs →
          (deleteCard f id cards w).1 = cardsJS cs ∧ StoredCards (deleteCard f id cards w).2 cs)
      ∧ Effect.alert "Error" "Failed to delete card" ∈ (deleteCard f id cards w).2.since w
      ∧ Effect.alert "Success" "Card deleted successfully" ∉
          (deleteCard f id cards w).2.since w := by
  rcases deleteCard_rejected_cases f id cards w hs with h | ⟨kept, h⟩
  · rw [h]
    refine ⟨rfl, rfl, fun cs hc hst => ⟨hc, hst⟩, ?_, ?_⟩ <;>
      rw [since_eq _ w [Effect.alert "Error" "Failed to delete card"] rfl] <;> simp
  · rw [h]
    refine ⟨rfl, rfl, fun cs hc hst => ⟨hc, hst⟩, ?_, ?_⟩ <;>
      rw [since_eq _ w [Effect.setItem "vocabCards" (JSON_stringify (.arr kept)),
        Effect.alert "Error" "Failed to delete card"] (by simp [World.emit])] <;> simp

/-- C8 at the removal of the sample card while the write rejects. -/
theorem deleteCard_write_rejected_witness :
    writeRejects.setItem = true ∧
    ((deleteCard writeRejects (lit "1") (cardsJS [catCard]) catWorld).1 = cardsJS [catCard]
      ∧ (deleteCard writeRejects (lit "1") (cardsJS [catCard]) catWorld).2.storage
          = catWorld.storage
      ∧ Effect.alert "Error" "Failed to delete card" ∈
          (deleteCard writeRejects (lit "1") (cardsJS [catCard]) catWorld).2.since catWorld) :=
  ⟨rfl,
    (deleteCard_write_rejected writeRejects (lit "1") (cardsJS [catCard]) catWorld rfl).1,
    (deleteCard_write_rejected writeRejects (lit "1") (cardsJS [catCard]) catWorld rfl).2.1,
    (deleteCard_write_rejected writeRejects (lit "1") (cardsJS [catCard]) catWorld rfl).2.2.2.1⟩

/-! ## Reminder scheduling -/

/-- C9: from the initial settings, `toggleNotifications(true)` while the
registration rejects issues no alert, sets the enabled flag and persists a
record with `notificationsEnabled` true, although no registration is
active. -/
theorem toggleNotifications_records_failed_registration :
    (toggleNotifications registrationRejects true initialSettings emptyWorld).1 = ⟨true, 30⟩
      ∧ (toggleNotifications registrationRejects true initialSettings emptyWorld).2.storage
          "settings" = some (JSON_stringify (SettingsState.toJS ⟨true, 30⟩))
      ∧ (toggleNotifications registrationRejects true initialSettings emptyWorld).2.task = none
      ∧ (toggleNotifications registrationRejects true initialSettings emptyWorld).2.log
          = [Effect.registerTaskAsync BACKGROUND_FETCH_TASK 1800,
              Effect.consoleError "Error registering background fetch:",
              Effect.setItem "settings" (JSON_stringify (SettingsState.toJS ⟨true, 30⟩))] := by
  decide

/-- C10, as the claim states it, fails: with reminders enabled at interval
30 and no call rejecting, `updateInterval(60)` issues the settings write
before the unregister and register calls. -/
theorem updateInterval_writes_before_registering :
    (updateInterval noFaults 60 ⟨true, 30⟩ emptyWorld).2.log =
      [Effect.setItem "settings" (JSON_stringify (SettingsState.toJS ⟨true, 60⟩)),
        Effect.unregisterTaskAsync BACKGROUND_FETCH_TASK,
        Effect.registerTaskAsync BACKGROUND_FETCH_TASK 1800] := by
  decide

/-- C10 amended: when reminders are enabled, the calls `updateInterval`
makes to the storage and to the registration service are, in this order,
the write of the new interval to the settings record, the unregister call
and the register call, whichever of them rejects. -/
theorem updateInterval_call_order (f : Faults) (newInterval : Int) (st : SettingsState)
    (w : World) (h : st.notificationsEnabled = true) :
    ((updateInterval f newInterval st w).2.since w).filter Effect.isServiceCall =
      [Effect.setItem "settings" (JSON_stringify (SettingsState.toJS ⟨true, newInterval⟩)),
        Effect.unregisterTaskAsync BACKGROUND_FETCH_TASK,
        Effect.registerTaskAsync BACKGROUND_FETCH_TASK (st.interval * 60)] := by
  cases h1 : f.setItem <;> cases h2 : f.unregisterTask <;> cases h3 : f.registerTask <;>
    simp [updateInterval, saveSettings, unregisterBackgroundFetchAsync,
      registerBackgroundFetchAsync, AsyncStorage_setItem, BackgroundFetch_registerTaskAsync,
      BackgroundFetch_unregisterTaskAsync, console_error, World.emit, World.since, h, h1, h2, h3,
      Effect.isServiceCall]

/-- C10 amended, at `updateInterval(60)` with reminders enabled at interval
30 while the registration rejects. -/
theorem updateInterval_call_order_witness :
    (⟨true, 30⟩ : SettingsState).notificationsEnabled = true ∧
    ((updateInterval registrationRejects 60 ⟨true, 30⟩ emptyWorld).2.since emptyWorld).filter
        Effect.isServiceCall =
      [Effect.setItem "settings" (JSON_stringify (SettingsState.toJS ⟨true, 60⟩)),
        Effect.unregisterTaskAsync BACKGROUND_FETCH_TASK,
        Effect.registerTaskAsync BACKGROUND_FETCH_TASK ((⟨true, 30⟩ : SettingsState).interval * 60)] :=
  ⟨rfl, updateInterval_call_order registrationRejects 60 ⟨true, 30⟩ emptyWorld rfl⟩


/-! ## Decoding a settings record -/

theorem digitChar_isDigit : ∀ k, k < 10 → isDigit (Nat.digitChar k).toNat = true := by decide

theorem digitChar_eq_zero : ∀ k, k < 10 → (Nat.digitChar k).toNat = 48 → k = 0 := by decide

/-- The digits `Nat.toDigits` puts in front of its accumulator: digits only,
at least one, and no leading zero unless the number is zero. -/
theorem toDigitsCore_spec : ∀ (fuel n : Nat) (ds : List Char), n < fuel →
    ∃ L : List Char, Nat.toDigitsCore 10 fuel n ds = L ++ ds ∧ L ≠ [] ∧
      (∀ c ∈ L, isDigit c.toNat = true) ∧
      (∀ c, L.head? = some c → c.toNat = 48 → L = [c] ∧ n = 0)
  | 0, n, ds, h => by omega
  | fuel + 1, n, ds, h => by
    have hd := digitChar_isDigit (n % 10) (Nat.mod_lt _ (by decide))
    by_cases h0 : n / 10 = 0
    · refine ⟨[Nat.digitChar (n % 10)], ?_, by simp, ?_, ?_⟩
      · simp [Nat.toDigitsCore, h0]
      · intro c hc
        simp only [List.mem_singleton] at hc
        subst hc
        exact hd
      · intro c hc hz
        simp only [List.head?_cons, Option.some.injEq] at hc
        subst hc
        have := digitChar_eq_zero (n % 10) (Nat.mod_lt _ (by decide)) hz
        exact ⟨rfl, by omega⟩
    · obtain ⟨L, hL, hne, hall, hhead⟩ :=
        toDigitsCore_spec fuel (n / 10) (Nat.digitChar (n % 10) :: ds) (by omega)
      refine ⟨L ++ [Nat.digitChar (n % 10)], ?_, by simp, ?_, ?_⟩
      · simp [Nat.toDigitsCore, h0, hL]
      · intro c hc
        rcases List.mem_append.mp hc with hc | hc
        · exact hall c hc
        · simp only [List.mem_singleton] at hc
          subst hc
          exact hd
      · intro c hc hz
        cases L with
        | nil => exact absurd rfl hne
        | cons x xs =>
          simp only [List.cons_append, List.head?_cons, Option.some.injEq] at hc
          subst hc
          exact absurd (hhead x rfl hz).2 h0

/-- The decimal text of a number: digits only, at least one, and no leading
zero unless it is the single digit `0`. -/
theorem decimal_spec (n : Nat) :
    decimal n ≠ [] ∧ (∀ c ∈ decimal n, isDigit c = true) ∧
      (∀ c, (decimal n).head? = some c → c = 48 → decimal n = [48]) := by
  obtain ⟨L, hL, hne, hall, hhead⟩ := toDigitsCore_spec (n + 1) n [] (Nat.lt_succ_self n)
  have hd : decimal n = L.map Char.toNat := by
    simp [decimal, Nat.toDigits, hL]
  rw [hd]
  refine ⟨by simpa using hne, ?_, ?_⟩
  · intro c hc
    obtain ⟨x, hx, rfl⟩ := List.mem_map.mp hc
    exact hall x hx
  · intro c hc hz
    cases L with
    | nil => exact absurd rfl hne
    | cons x xs =>
      simp only [List.map_cons, List.head?_cons, Option.some.injEq] at hc
      subst hc
      have := (hhead x rfl hz).1
      simp only [List.cons.injEq, true_and] at this
      subst this
      simp [hz]

theorem takeWhile_digits (t rest : JSString) (h : ∀ c ∈ t, isDigit c = true) :
    (t ++ 125 :: rest).takeWhile isDigit = t ∧ (t ++ 125 :: rest).dropWhile isDigit = 125 :: rest := by
  induction t with
  | nil => exact ⟨by simp [List.takeWhile, isDigit], by simp [List.dropWhile, isDigit]⟩
  | cons c t ih =>
    have hc := h c (List.mem_cons_self _ _)
    have ih1 := ih (fun x hx => h x (List.mem_cons_of_mem _ hx))
    simp [List.takeWhile, List.dropWhile, hc, ih1.1, ih1.2]

theorem parseIntPart_decimal (n : Nat) (rest : JSString) :
    parseIntPart (decimal n ++ 125 :: rest) = some (decimal n, 125 :: rest) := by
  obtain ⟨hne, hall, hhead⟩ := decimal_spec n
  cases hd : decimal n with
  | nil => exact absurd hd hne
  | cons c t =>
    rw [hd] at hall hhead
    have hc := hall c (List.mem_cons_self _ _)
    have ht := takeWhile_digits t rest (fun x hx => hall x (List.mem_cons_of_mem _ hx))
    simp only [List.cons_append, parseIntPart]
    by_cases h48 : c = 48
    · have := hhead c rfl h48
      simp only [List.cons.injEq] at this
      obtain ⟨_, rfl⟩ := this
      simp [h48]
    · simp [h48, hc, ht.1, ht.2]

theorem parseNumber_tail (s : JSString) (rest : JSString) (x : JSString)
    (h : parseIntPart s = some (x, 125 :: rest)) (hs : s.head? ≠ some 45) :
    parseNumber s = some (x, 125 :: rest) := by
  unfold parseNumber
  have hm : (match s with
      | 45 :: r => (([45] : JSString), r)
      | _ => ([], s)) = ([], s) := by
    split
    · simp at hs
    · rfl
  simp only [hm, h, parseFrac, parseExp]
  simp

theorem parseNumber_minus (s : JSString) (rest : JSString) (x : JSString)
    (h : parseIntPart s = some (x, 125 :: rest)) :
    parseNumber (45 :: s) = some (45 :: x, 125 :: rest) := by
  unfold parseNumber
  simp only [h, parseFrac, parseExp]
  simp

theorem decimal_head_digit (n : Nat) : ∃ c t, decimal n = c :: t ∧ isDigit c = true := by
  obtain ⟨hne, hall, _⟩ := decimal_spec n
  cases hd : decimal n with
  | nil => exact absurd hd hne
  | cons c t => exact ⟨c, t, rfl, by rw [hd] at hall; exact hall c (List.mem_cons_self _ _)⟩

theorem parseNumber_intText (i : Int) (rest : JSString) :
    parseNumber (intText i ++ 125 :: rest) = some (intText i, 125 :: rest) := by
  unfold intText
  split_ifs with hneg
  · exact parseNumber_minus _ rest _ (parseIntPart_decimal _ rest)
  · apply parseNumber_tail _ rest _ (parseIntPart_decimal _ rest)
    obtain ⟨c, t, hd, hc⟩ := decimal_head_digit i.natAbs
    rw [hd]
    simp only [List.cons_append, List.head?_cons, ne_eq, Option.some.injEq]
    rintro rfl
    simp [isDigit] at hc

theorem intText_head (i : Int) :
    ∃ c t, intText i = c :: t ∧ (c = 45 ∨ isDigit c = true) := by
  unfold intText
  split_ifs
  · exact ⟨45, _, rfl, Or.inl rfl⟩
  · obtain ⟨c, t, hd, hc⟩ := decimal_head_digit i.natAbs
    exact ⟨c, t, hd, Or.inr hc⟩

theorem parseValue_intText (n : Nat) (i : Int) (rest : JSString) :
    parseValue (n + 1) (intText i ++ 125 :: rest) = some (.num (intText i), 125 :: rest) := by
  have hp := parseNumber_intText i rest
  obtain ⟨c, t, hd, hc⟩ := intText_head i
  rw [hd] at hp ⊢
  have hsp : isJSONSpace c = false := by
    rcases hc with rfl | hc
    · decide
    · simp only [isDigit, Bool.and_eq_true, decide_eq_true_eq] at hc
      simp only [isJSONSpace, Bool.or_eq_false_iff, decide_eq_false_iff_not]
      omega
  have h34 : c ≠ 34 := by
    rcases hc with rfl | hc
    · decide
    · simp only [isDigit, Bool.and_eq_true, decide_eq_true_eq] at hc; omega
  have h91 : c ≠ 91 := by
    rcases hc with rfl | hc
    · decide
    · simp only [isDigit, Bool.and_eq_true, decide_eq_true_eq] at hc; omega
  have h123 : c ≠ 123 := by
    rcases hc with rfl | hc
    · decide
    · simp only [isDigit, Bool.and_eq_true, decide_eq_true_eq] at hc; omega
  simp only [List.cons_append] at hp ⊢
  rw [parseValue, skipWs_cons c _ hsp]
  simp only [h34, h91, h123, if_false, hc, if_true, hp]

theorem parseValue_bool (n : Nat) (b : Bool) (rest : JSString) :
    parseValue (n + 1) (JSON_stringify (.bool b) ++ rest) = some (.bool b, rest) := by
  cases b
  · simp only [JSON_stringify]
    rw [show lit "false" ++ rest = 102 :: (97 :: 108 :: 115 :: 101 :: rest) from rfl, parseValue,
      skipWs_cons 102 _ (by decide)]
    rfl
  · simp only [JSON_stringify]
    rw [show lit "true" ++ rest = 116 :: (114 :: 117 :: 101 :: rest) from rfl, parseValue,
      skipWs_cons 116 _ (by decide)]
    rfl

theorem parseMembers_value_more (n : Nat) (k r2 rest : JSString) (v : JSValue)
    (acc : List (JSString × JSValue)) (hv : parseValue (n + 1) r2 = some (v, 44 :: rest)) :
    parseMembers (n + 2) (quote k ++ 58 :: r2) acc =
      parseMembers (n + 1) rest (setProp acc k v) := by
  rw [quote_append, parseMembers, skipWs_cons 34 _ (by decide)]
  simp only [if_true, parseStringBody_quoteBody, skipWs_cons 58 _ (by decide), hv,
    skipWs_cons 44 _ (by decide)]

theorem parseMembers_value_last (n : Nat) (k r2 rest : JSString) (v : JSValue)
    (acc : List (JSString × JSValue)) (hv : parseValue (n + 1) r2 = some (v, 125 :: rest)) :
    parseMembers (n + 2) (quote k ++ 58 :: r2) acc = some (.obj (setProp acc k v), rest) := by
  rw [quote_append, parseMembers, skipWs_cons 34 _ (by decide)]
  simp only [if_true, parseStringBody_quoteBody, skipWs_cons 58 _ (by decide), hv,
    skipWs_cons 125 _ (by decide)]
  simp

theorem stringify_settings (s : SettingsState) (rest : JSString) :
    JSON_stringify s.toJS ++ rest =
      123 :: (quote (lit "notificationsEnabled") ++ 58 ::
        (JSON_stringify (.bool s.notificationsEnabled) ++ 44 ::
        (quote (lit "interval") ++ 58 :: (intText s.interval ++ 125 :: rest)))) := by
  obtain ⟨b, i⟩ := s
  cases b <;> simp [SettingsState.toJS, JSON_stringify, stringifyProps]

theorem parseValue_settings (n : Nat) (s : SettingsState) (rest : JSString) :
    parseValue (n + 4) (JSON_stringify s.toJS ++ rest) = some (s.toJS, rest) := by
  rw [stringify_settings, parseValue, skipWs_cons 123 _ (by decide)]
  have h0 : ∀ (k r : JSString) (acc : List (JSString × JSValue)) (m : Nat),
      (match skipWs (quote k ++ r) with
        | [] => none
        | d :: r1 => if d = 125 then some (JSValue.obj [], r1) else parseMembers m (d :: r1) acc)
      = parseMembers m (quote k ++ r) acc := by
    intro k r acc m
    rw [quote_append, skipWs_cons 34 _ (by decide)]
    simp
  simp only [show (123 : Nat) = 34 ↔ False by decide, show (123 : Nat) = 91 ↔ False by decide,
    if_false, if_true, h0]
  rw [parseMembers_value_more (n + 1) _ _ _ _ _ (parseValue_bool (n + 1) _ _),
    parseMembers_value_last n _ _ _ _ _ (parseValue_intText n _ _)]
  rfl

/-- Decoding what `JSON.stringify` writes for a settings record gives the
record back. -/
theorem parse_stringify_settings (s : SettingsState) :
    JSON_parse (JSON_stringify s.toJS) = some s.toJS := by
  have hlen : 2 ≤ (JSON_stringify s.toJS).length := by
    have := stringify_settings s []
    rw [List.append_nil] at this
    rw [this]
    simp only [List.length_cons, List.length_append]
    omega
  obtain ⟨n, hn⟩ : ∃ n, 2 * (JSON_stringify s.toJS).length + 2 = n + 4 :=
    ⟨2 * (JSON_stringify s.toJS).length + 2 - 4, by omega⟩
  have hp := parseValue_settings n s []
  rw [List.append_nil] at hp
  simp [JSON_parse, hn, hp, skipWs]


/-! ## What the handlers do, continued -/

/-- `handleAddCard` is its part before the read resolves followed by its part
after. -/
theorem handleAddCard_eq_steps (f : Faults) (now : Nat) (word meaning example_ : JSString)
    (w : World) :
    handleAddCard f now word meaning example_ w =
      match handleAddCard_read f now word meaning example_ w with
      | (none, w1) => w1
      | (some p, w1) => handleAddCard_write f p w1 := by
  unfold handleAddCard handleAddCard_read handleAddCard_write
  by_cases hv : trim word = [] ∨ trim meaning = []
  · simp [hv]
  · simp only [hv, if_false]
    cases hg : f.getItem <;> simp [AsyncStorage_getItem, hg]

theorem storedCards_iff (w : World) (cs : List Card) :
    StoredCards w cs ↔ Decodes (w.storage "vocabCards") cs := Iff.rfl

theorem decodes_stringify (cs : List Card) :
    Decodes (some (JSON_stringify (cardsJS cs))) cs :=
  Or.inr ⟨_, rfl, parse_stringify_cards cs⟩

theorem stepAdd_start (r : AddRequest) (w : World) (h : r.Succeeds) :
    stepAdd r .notStarted w =
      (.suspended ⟨r.card, some (w.storage "vocabCards")⟩, w.emit (Effect.getItem "vocabCards")) := by
  obtain ⟨hg, _, hw, hm⟩ := h
  simp [stepAdd, handleAddCard_read, hw, hm, AsyncStorage_getItem, hg, AddRequest.card]

theorem stepAdd_resume (r : AddRequest) (c : Card) (stored : Option JSString) (cs : List Card)
    (w : World) (h : r.Succeeds) (hd : Decodes stored cs) :
    ∃ wf, stepAdd r (.suspended ⟨c, some stored⟩) w = (.finished, wf) ∧
      wf.storage "vocabCards" = some (JSON_stringify (cardsJS (cs ++ [c]))) := by
  obtain ⟨_, hs, _, _⟩ := h
  refine ⟨handleAddCard_write r.faults ⟨c, some stored⟩ w, rfl, ?_⟩
  rcases hd with ⟨rfl, rfl⟩ | ⟨text, rfl, hp⟩
  · simp [handleAddCard_write, push, AsyncStorage_setItem, hs, Alert_alert, World.emit, cardsJS]
  · have hne : text ≠ [] := by
      rintro rfl
      rw [JSON_parse_nil] at hp
      cases hp
    simp [handleAddCard_write, hne, hp, cardsJS, push, AsyncStorage_setItem, hs, Alert_alert,
      World.emit]

theorem schedules_of_two (s : List Bool) (h1 : s.count true = 2) (h2 : s.count false = 2) :
    s = [true, true, false, false] ∨ s = [true, false, true, false] ∨
      s = [true, false, false, true] ∨ s = [false, false, true, true] ∨
      s = [false, true, false, true] ∨ s = [false, true, true, false] := by
  have hlen : s.length = 4 := by
    rw [← List.count_true_add_count_false, h1, h2]
  match s, hlen with
  | [x1, x2, x3, x4], _ =>
    revert h1 h2
    revert x1 x2 x3 x4
    decide

theorem emit_storage (w : World) (e : Effect) : (w.emit e).storage = w.storage := rfl

/-- Two adds that run one after the other: the second reads what the first
wrote. -/
theorem runTwoAdds_serial (a b : AddRequest) (cs : List Card) (w : World)
    (ha : a.Succeeds) (hb : b.Succeeds) (hst : Decodes (w.storage "vocabCards") cs) :
    (∃ wf, runTwoAdds a b [true, true, false, false] (.notStarted, .notStarted, w)
        = (.finished, .finished, wf) ∧
      wf.storage "vocabCards" = some (JSON_stringify (cardsJS (cs ++ [a.card, b.card])))) ∧
    (∃ wf, runTwoAdds a b [false, false, true, true] (.notStarted, .notStarted, w)
        = (.finished, .finished, wf) ∧
      wf.storage "vocabCards" = some (JSON_stringify (cardsJS (cs ++ [b.card, a.card])))) := by
  constructor
  · obtain ⟨w2, h2, hs2⟩ := stepAdd_resume a a.card _ cs (w.emit (Effect.getItem "vocabCards"))
      ha hst
    have hd2 : Decodes (w2.storage "vocabCards") (cs ++ [a.card]) := by
      rw [hs2]; exact decodes_stringify _
    obtain ⟨w4, h4, hs4⟩ := stepAdd_resume b b.card _ (cs ++ [a.card])
      (w2.emit (Effect.getItem "vocabCards")) hb hd2
    refine ⟨w4, ?_, by rw [hs4]; simp⟩
    simp only [runTwoAdds, stepAdd_start a w ha, h2, stepAdd_start b w2 hb, h4]
  · obtain ⟨w2, h2, hs2⟩ := stepAdd_resume b b.card _ cs (w.emit (Effect.getItem "vocabCards"))
      hb hst
    have hd2 : Decodes (w2.storage "vocabCards") (cs ++ [b.card]) := by
      rw [hs2]; exact decodes_stringify _
    obtain ⟨w4, h4, hs4⟩ := stepAdd_resume a a.card _ (cs ++ [b.card])
      (w2.emit (Effect.getItem "vocabCards")) ha hd2
    refine ⟨w4, ?_, by rw [hs4]; simp⟩
    simp only [runTwoAdds, stepAdd_start b w hb, h2, stepAdd_start a w2 ha, h4]

/-- Two adds whose reads both come before their writes: each write is built
on the collection read at the start, so the later write replaces the
earlier. -/
theorem runTwoAdds_overlapping (a b : AddRequest) (cs : List Card) (w : World)
    (ha : a.Succeeds) (hb : b.Succeeds) (hst : Decodes (w.storage "vocabCards") cs)
    (r1 r2 w1 w2 : Bool) (hr : r1 ≠ r2) (hw : w1 ≠ w2) :
    ∃ wf, runTwoAdds a b [r1, r2, w1, w2] (.notStarted, .notStarted, w)
        = (.finished, .finished, wf) ∧
      wf.storage "vocabCards" = some (JSON_stringify (cardsJS
        (cs ++ [if w2 = true then a.card else b.card]))) := by
  have e1 := emit_storage w (Effect.getItem "vocabCards")
  have e2 := emit_storage (w.emit (Effect.getItem "vocabCards")) (Effect.getItem "vocabCards")
  have hst2 : Decodes (((w.emit (Effect.getItem "vocabCards")).emit
      (Effect.getItem "vocabCards")).storage "vocabCards") cs := by
    rw [e2, e1]; exact hst
  have hsa := stepAdd_start a
  have hsb := stepAdd_start b
  cases r1 <;> cases r2 <;> first | exact absurd rfl hr | skip
  all_goals cases w1 <;> cases w2 <;> first | exact absurd rfl hw | skip
  · -- b reads, a reads, b writes, a writes
    obtain ⟨w3, h3, hs3⟩ := stepAdd_resume b b.card (w.storage "vocabCards") cs
      ((w.emit (Effect.getItem "vocabCards")).emit (Effect.getItem "vocabCards")) hb hst
    obtain ⟨w4, h4, hs4⟩ := stepAdd_resume a a.card (w.storage "vocabCards") cs w3 ha hst
    refine ⟨w4, ?_, by rw [hs4]; simp⟩
    simp only [runTwoAdds, hsb w hb, hsa _ ha, e1, h3, h4]
  · -- b reads, a reads, a writes, b writes
    obtain ⟨w3, h3, hs3⟩ := stepAdd_resume a a.card (w.storage "vocabCards") cs
      ((w.emit (Effect.getItem "vocabCards")).emit (Effect.getItem "vocabCards")) ha hst
    obtain ⟨w4, h4, hs4⟩ := stepAdd_resume b b.card (w.storage "vocabCards") cs w3 hb hst
    refine ⟨w4, ?_, by rw [hs4]; simp⟩
    simp only [runTwoAdds, hsb w hb, hsa _ ha, e1, h3, h4]
  · -- a reads, b reads, b writes, a writes
    obtain ⟨w3, h3, hs3⟩ := stepAdd_resume b b.card (w.storage "vocabCards") cs
      ((w.emit (Effect.getItem "vocabCards")).emit (Effect.getItem "vocabCards")) hb hst
    obtain ⟨w4, h4, hs4⟩ := stepAdd_resume a a.card (w.storage "vocabCards") cs w3 ha hst
    refine ⟨w4, ?_, by rw [hs4]; simp⟩
    simp only [runTwoAdds, hsa w ha, hsb _ hb, e1, h3, h4]
  · -- a reads, b reads, a writes, b writes
    obtain ⟨w3, h3, hs3⟩ := stepAdd_resume a a.card (w.storage "vocabCards") cs
      ((w.emit (Effect.getItem "vocabCards")).emit (Effect.getItem "vocabCards")) ha hst
    obtain ⟨w4, h4, hs4⟩ := stepAdd_resume b b.card (w.storage "vocabCards") cs w3 hb hst
    refine ⟨w4, ?_, by rw [hs4]; simp⟩
    simp only [runTwoAdds, hsa w ha, hsb _ hb, e1, h3, h4]


/-! ## What the settings handlers do -/

theorem saveSettings_log (f : Faults) (s : SettingsState) (w : World) :
    (saveSettings f s w).log = w.log ++
      Effect.setItem "settings" (JSON_stringify s.toJS) ::
        (if f.setItem then [Effect.consoleError "Error saving settings:"] else []) := by
  cases h : f.setItem <;> simp [saveSettings, AsyncStorage_setItem, h, console_error, World.emit]

theorem saveSettings_storage (f : Faults) (s : SettingsState) (w : World) :
    (saveSettings f s w).storage =
      if f.setItem then w.storage
      else fun k => if k = "settings" then some (JSON_stringify s.toJS) else w.storage k := by
  cases h : f.setItem <;> simp [saveSettings, AsyncStorage_setItem, h, console_error, World.emit]

theorem saveSettings_task (f : Faults) (s : SettingsState) (w : World) :
    (saveSettings f s w).task = w.task := by
  cases h : f.setItem <;> simp [saveSettings, AsyncStorage_setItem, h, console_error, World.emit]

theorem register_eq (f : Faults) (st : SettingsState) (w : World) :
    registerBackgroundFetchAsync f st w =
      (true, { storage := w.storage
               task := if f.registerTask then w.task else some (st.interval * 60)
               log := w.log ++ Effect.registerTaskAsync BACKGROUND_FETCH_TASK (st.interval * 60) ::
                 (if f.registerTask then
                   [Effect.consoleError "Error registering background fetch:"] else []) }) := by
  cases h : f.registerTask <;>
    simp [registerBackgroundFetchAsync, BackgroundFetch_registerTaskAsync, h, console_error,
      World.emit]

theorem unregister_eq (f : Faults) (w : World) :
    unregisterBackgroundFetchAsync f w =
      (true, { storage := w.storage
               task := if f.unregisterTask then w.task else none
               log := w.log ++ Effect.unregisterTaskAsync BACKGROUND_FETCH_TASK ::
                 (if f.unregisterTask then
                   [Effect.consoleError "Error unregistering background fetch:"] else []) }) := by
  cases h : f.unregisterTask <;>
    simp [unregisterBackgroundFetchAsync, BackgroundFetch_unregisterTaskAsync, h, console_error,
      World.emit]

/-- The catch block of `toggleNotifications` is never entered. -/
theorem toggleNotifications_eq (f : Faults) (value : Bool) (st : SettingsState) (w : World) :
    toggleNotifications f value st w =
      (⟨value, st.interval⟩, saveSettings f ⟨value, st.interval⟩
        (if value then (registerBackgroundFetchAsync f st w).2
          else (unregisterBackgroundFetchAsync f w).2)) := by
  cases value <;> simp [toggleNotifications, register_eq, unregister_eq]

/-- The catch block of `updateInterval` is never entered. -/
theorem updateInterval_eq (f : Faults) (newInterval : Int) (st : SettingsState) (w : World) :
    updateInterval f newInterval st w =
      (⟨st.notificationsEnabled, newInterval⟩,
        if st.notificationsEnabled then
          (registerBackgroundFetchAsync f st (unregisterBackgroundFetchAsync f
            (saveSettings f ⟨st.notificationsEnabled, newInterval⟩ w)).2).2
        else saveSettings f ⟨st.notificationsEnabled, newInterval⟩ w) := by
  cases h : st.notificationsEnabled <;> simp [updateInterval, register_eq, unregister_eq, h]

theorem storedSettings_of_storage (w : World) (s : SettingsState)
    (h : w.storage "settings" = some (JSON_stringify s.toJS)) : StoredSettings w s :=
  ⟨_, h, parse_stringify_settings s⟩

/-- The log a settings call leaves is the log before followed by its own
effects; every settings write among them carries the interval of the state
or the new interval, so a positive one when the state has a positive
interval and the call does not set a non-positive one. -/
theorem settingsCall_writes (f : Faults) (c : SettingsCall) (st : SettingsState) (w : World)
    (hst : 0 < st.interval) (hc : ∀ n, c = .updateInterval n → 0 < n) :
    0 < (c.run f st w).1.interval ∧
    ∃ l, (c.run f st w).2.log = w.log ++ l ∧
      ∀ p, Effect.setItem "settings" p ∈ l →
        ∃ b i, 0 < i ∧ p = JSON_stringify (SettingsState.toJS ⟨b, i⟩) := by
  cases c with
  | toggleNotifications value =>
    simp only [SettingsCall.run, toggleNotifications_eq]
    refine ⟨hst, ?_⟩
    cases value
    · refine ⟨_, by simp only [saveSettings_log, unregister_eq, Bool.false_eq_true, if_false,
        List.append_assoc]; rfl, ?_⟩
      intro p hp
      refine ⟨false, st.interval, hst, ?_⟩
      cases h1 : f.unregisterTask <;> cases h2 : f.setItem <;> simp [h1, h2] at hp <;> exact hp
    · refine ⟨_, by simp only [saveSettings_log, register_eq, if_true, List.append_assoc]; rfl, ?_⟩
      intro p hp
      refine ⟨true, st.interval, hst, ?_⟩
      cases h1 : f.registerTask <;> cases h2 : f.setItem <;> simp [h1, h2] at hp <;> exact hp
  | updateInterval n =>
    have hn := hc n rfl
    simp only [SettingsCall.run, updateInterval_eq]
    refine ⟨hn, ?_⟩
    cases hen : st.notificationsEnabled
    · refine ⟨_, by simp only [Bool.false_eq_true, if_false, saveSettings_log]; rfl, ?_⟩
      intro p hp
      refine ⟨false, n, hn, ?_⟩
      cases h2 : f.setItem <;> simp [h2] at hp <;> exact hp
    · refine ⟨_, by simp only [if_true, saveSettings_log, register_eq, unregister_eq,
        List.append_assoc]; rfl, ?_⟩
      intro p hp
      refine ⟨true, n, hn, ?_⟩
      cases h1 : f.registerTask <;> cases h2 : f.setItem <;> cases h3 : f.unregisterTask <;>
        simp [h1, h2, h3] at hp <;> exact hp

theorem runSettings_writes (calls : List (Faults × SettingsCall)) :
    ∀ (st : SettingsState) (w : World), 0 < st.interval →
      (∀ fc ∈ calls, ∀ n, fc.2 = SettingsCall.updateInterval n → 0 < n) →
      ∃ l, (runSettings calls st w).2.log = w.log ++ l ∧
        ∀ p, Effect.setItem "settings" p ∈ l →
          ∃ b i, 0 < i ∧ p = JSON_stringify (SettingsState.toJS ⟨b, i⟩) := by
  induction calls with
  | nil =>
    intro st w _ _
    exact ⟨[], by simp [runSettings], by simp⟩
  | cons fc calls ih =>
    intro st w hst hc
    obtain ⟨f, c⟩ := fc
    obtain ⟨hpos, l1, hl1, hp1⟩ := settingsCall_writes f c st w hst
      (fun n hn => hc (f, c) (List.mem_cons_self _ _) n hn)
    obtain ⟨l2, hl2, hp2⟩ := ih (c.run f st w).1 (c.run f st w).2 hpos
      (fun fc hfc => hc fc (List.mem_cons_of_mem _ hfc))
    refine ⟨l1 ++ l2, ?_, ?_⟩
    · simp only [runSettings]
      rw [hl2, hl1, List.append_assoc]
    · intro p hp
      rcases List.mem_append.mp hp with h | h
      · exact hp1 p h
      · exact hp2 p h


/-! ## Which keys the writers touch -/

theorem setItem_frame (f : Faults) (key : String) (value : JSString) (w : World) (k : String)
    (hk : k ≠ key) : (AsyncStorage_setItem f key value w).2.storage k = w.storage k := by
  cases h : f.setItem <;> simp [AsyncStorage_setItem, h, World.emit, hk]

theorem handleAddCard_write_frame (f : Faults) (p : PendingAdd) (w : World) (k : String)
    (hk : k ≠ "vocabCards") : (handleAddCard_write f p w).storage k = w.storage k := by
  have key : ∀ parsed : Option JSValue,
      (match parsed with
        | none => Alert_alert "Error" "Failed to add card" w
        | some cards =>
          match push cards p.newCard.toJS with
          | none => Alert_alert "Error" "Failed to add card" w
          | some cards1 =>
            match AsyncStorage_setItem f "vocabCards" (JSON_stringify cards1) w with
            | (false, w2) => Alert_alert "Error" "Failed to add card" w2
            | (true, w2) => Alert_alert "Success" "Card added successfully" w2).storage k
        = w.storage k := by
    intro parsed
    cases parsed with
    | none => rfl
    | some cards =>
      simp only
      cases push cards p.newCard.toJS with
      | none => rfl
      | some cards1 =>
        have := setItem_frame f "vocabCards" (JSON_stringify cards1) w k hk
        simp only
        split <;> rename_i w2 h2 <;> rw [h2] at this <;> exact this
  unfold handleAddCard_write
  cases p.existingCards with
  | none => rfl
  | some existingCards => exact key _

theorem handleAddCard_frame (f : Faults) (now : Nat) (word meaning example_ : JSString)
    (w : World) (k : String) (hk : k ≠ "vocabCards") :
    (handleAddCard f now word meaning example_ w).storage k = w.storage k := by
  rw [handleAddCard_eq_steps]
  unfold handleAddCard_read
  split_ifs
  · rfl
  · simp only [AsyncStorage_getItem]
    split_ifs <;> exact handleAddCard_write_frame f _ _ k hk

theorem deleteCard_frame (f : Faults) (id : JSString) (cards : JSValue) (w : World) (k : String)
    (hk : k ≠ "vocabCards") : (deleteCard f id cards w).2.storage k = w.storage k := by
  unfold deleteCard
  generalize (match cards with
    | .arr items => filterCards id items
    | _ => none : Option (List JSValue)) = filtered
  cases filtered with
  | none => rfl
  | some kept =>
    have := setItem_frame f "vocabCards" (JSON_stringify (.arr kept)) w k hk
    simp only
    split <;> rename_i w1 h1 <;> rw [h1] at this <;> exact this

theorem toggleDarkMode_frame (f : Faults) (isDarkMode : Bool) (w : World) (k : String)
    (hk : k ≠ "appSettings") : (toggleDarkMode f isDarkMode w).2.storage k = w.storage k := by
  cases h : f.setItem <;>
    simp [toggleDarkMode, AsyncStorage_setItem, h, World.emit, console_error, hk]

theorem saveSettings_frame (f : Faults) (s : SettingsState) (w : World) (k : String)
    (hk : k ≠ "settings") : (saveSettings f s w).storage k = w.storage k := by
  rw [saveSettings_storage]
  split_ifs <;> simp [hk]


/-- `updateInterval` accepts every interval: it issues no alert, writes the
record with that interval, and the record is stored when the write
succeeds. -/
theorem updateInterval_accepts (f : Faults) (n : Int) (st : SettingsState) (w : World) :
    (∀ title message, Effect.alert title message ∉ (updateInterval f n st w).2.since w)
      ∧ Effect.setItem "settings"
          (JSON_stringify (SettingsState.toJS ⟨st.notificationsEnabled, n⟩)) ∈
            (updateInterval f n st w).2.since w
      ∧ (f.setItem = false →
          StoredSettings (updateInterval f n st w).2 ⟨st.notificationsEnabled, n⟩) := by
  have hlog : ∃ l, (updateInterval f n st w).2.log = w.log ++ l ∧
      (∀ title message, Effect.alert title message ∉ l) ∧
      Effect.setItem "settings"
        (JSON_stringify (SettingsState.toJS ⟨st.notificationsEnabled, n⟩)) ∈ l := by
    cases hen : st.notificationsEnabled
    · refine ⟨_, by simp only [updateInterval_eq, hen, Bool.false_eq_true, if_false,
        saveSettings_log]; rfl, ?_, ?_⟩
      · intro title message
        cases h2 : f.setItem <;> simp [h2]
      · simp
    · refine ⟨_, by simp only [updateInterval_eq, hen, if_true, saveSettings_log, register_eq,
        unregister_eq, List.append_assoc]; rfl, ?_, ?_⟩
      · intro title message
        cases h1 : f.registerTask <;> cases h2 : f.setItem <;> cases h3 : f.unregisterTask <;>
          simp [h1, h2, h3]
      · simp
  obtain ⟨l, hl, hno, hmem⟩ := hlog
  refine ⟨?_, ?_, ?_⟩
  · rw [since_eq _ w l hl]; exact hno
  · rw [since_eq _ w l hl]; exact hmem
  · intro hs
    apply storedSettings_of_storage
    cases hen : st.notificationsEnabled <;>
      simp [updateInterval_eq, hen, register_eq, unregister_eq, saveSettings_storage, hs]

/-- `toggleNotifications(true)` accepts every interval the state holds: it
issues no alert, requests the registration with that interval, writes the
record with the flag set, and the record is stored when the write
succeeds. -/
theorem toggleNotifications_accepts (f : Faults) (st : SettingsState) (w : World) :
    (∀ title message, Effect.alert title message ∉ (toggleNotifications f true st w).2.since w)
      ∧ Effect.registerTaskAsync BACKGROUND_FETCH_TASK (st.interval * 60) ∈
          (toggleNotifications f true st w).2.since w
      ∧ Effect.setItem "settings" (JSON_stringify (SettingsState.toJS ⟨true, st.interval⟩)) ∈
          (toggleNotifications f true st w).2.since w
      ∧ (f.setItem = false →
          StoredSettings (toggleNotifications f true st w).2 ⟨true, st.interval⟩) := by
  have hlog : ∃ l, (toggleNotifications f true st w).2.log = w.log ++ l ∧
      (∀ title message, Effect.alert title message ∉ l) ∧
      Effect.registerTaskAsync BACKGROUND_FETCH_TASK (st.interval * 60) ∈ l ∧
      Effect.setItem "settings" (JSON_stringify (SettingsState.toJS ⟨true, st.interval⟩)) ∈ l := by
    refine ⟨_, by simp only [toggleNotifications_eq, if_true, saveSettings_log, register_eq,
      List.append_assoc]; rfl, ?_, ?_, ?_⟩
    · intro title message
      cases h1 : f.registerTask <;> cases h2 : f.setItem <;> simp [h1, h2]
    · simp
    · cases h1 : f.registerTask <;> simp [h1]
  obtain ⟨l, hl, hno, hreg, hmem⟩ := hlog
  refine ⟨?_, ?_, ?_, ?_⟩
  · rw [since_eq _ w l hl]; exact hno
  · rw [since_eq _ w l hl]; exact hreg
  · rw [since_eq _ w l hl]; exact hmem
  · intro hs
    apply storedSettings_of_storage
    simp [toggleNotifications_eq, register_eq, saveSettings_storage, hs]

/-! ## Reminder scheduling, continued -/

/-- C11: from the initial settings and with no call rejecting,
`toggleNotifications(true)` followed by `updateInterval(60)` leaves the state
at interval 60 and one registration, but the registration is the one
requested with minimumInterval 1800, the interval of the render in which
`updateInterval` ran, and not 60 * 60. -/
theorem updateInterval_registers_old_interval :
    (runSettings [(noFaults, .toggleNotifications true), (noFaults, .updateInterval 60)]
        initialSettings emptyWorld).1 = ⟨true, 60⟩
      ∧ (runSettings [(noFaults, .toggleNotifications true), (noFaults, .updateInterval 60)]
          initialSettings emptyWorld).2.task = some 1800
      ∧ (runSettings [(noFaults, .toggleNotifications true), (noFaults, .updateInterval 60)]
          initialSettings emptyWorld).2.task ≠ some (60 * 60)
      ∧ (runSettings [(noFaults, .toggleNotifications true), (noFaults, .updateInterval 60)]
          initialSettings emptyWorld).2.log =
        [Effect.registerTaskAsync BACKGROUND_FETCH_TASK 1800,
          Effect.setItem "settings" (JSON_stringify (SettingsState.toJS ⟨true, 30⟩)),
          Effect.setItem "settings" (JSON_stringify (SettingsState.toJS ⟨true, 60⟩)),
          Effect.unregisterTaskAsync BACKGROUND_FETCH_TASK,
          Effect.registerTaskAsync BACKGROUND_FETCH_TASK 1800] := by
  decide

/-- C12, as the claim states it, fails: with reminders enabled at interval
30, `updateInterval(60)` whose unregistration succeeds and whose
registration rejects issues no alert, and the settings record stored
afterwards has `notificationsEnabled` true. -/
theorem updateInterval_keeps_enabled_after_failed_registration :
    StoredSettings (updateInterval registrationRejects 60 ⟨true, 30⟩ emptyWorld).2 ⟨true, 60⟩
      ∧ (updateInterval registrationRejects 60 ⟨true, 30⟩ emptyWorld).2.task = none
      ∧ (updateInterval registrationRejects 60 ⟨true, 30⟩ emptyWorld).2.log =
        [Effect.setItem "settings" (JSON_stringify (SettingsState.toJS ⟨true, 60⟩)),
          Effect.unregisterTaskAsync BACKGROUND_FETCH_TASK,
          Effect.registerTaskAsync BACKGROUND_FETCH_TASK 1800,
          Effect.consoleError "Error registering background fetch:"] :=
  ⟨⟨_, rfl, rfl⟩, by decide, by decide⟩

/-- C12 amended: when reminders are enabled and `updateInterval` unregisters
successfully, fails to register again and its settings write succeeds, the
settings record stored afterwards has `notificationsEnabled` true and the
new interval, and no registration is active. -/
theorem updateInterval_failed_registration (f : Faults) (newInterval : Int)
    (st : SettingsState) (w : World) (hen : st.notificationsEnabled = true)
    (hu : f.unregisterTask = false) (hr : f.registerTask = true) (hs : f.setItem = false) :
    StoredSettings (updateInterval f newInterval st w).2 ⟨true, newInterval⟩
      ∧ (updateInterval f newInterval st w).2.task = none := by
  refine ⟨?_, ?_⟩
  · apply storedSettings_of_storage
    simp [updateInterval_eq, hen, register_eq, unregister_eq, saveSettings_storage, hs]
  · simp [updateInterval_eq, hen, register_eq, unregister_eq, hu, hr]

/-- C12 amended, at `updateInterval(60)` with reminders enabled at interval
30 while the registration rejects. -/
theorem updateInterval_failed_registration_witness :
    ((⟨true, 30⟩ : SettingsState).notificationsEnabled = true ∧
      registrationRejects.unregisterTask = false ∧ registrationRejects.registerTask = true ∧
      registrationRejects.setItem = false) ∧
    (StoredSettings (updateInterval registrationRejects 60 ⟨true, 30⟩ emptyWorld).2 ⟨true, 60⟩
      ∧ (updateInterval registrationRejects 60 ⟨true, 30⟩ emptyWorld).2.task = none) :=
  ⟨⟨rfl, rfl, rfl, rfl⟩,
    updateInterval_failed_registration registrationRejects 60 ⟨true, 30⟩ emptyWorld
      rfl rfl rfl rfl⟩

/-- C13: `toggleNotifications(false)` whose unregistration succeeds sets the
enabled flag to false, keeps the interval, and writes the settings record
with `notificationsEnabled` false and the interval held before the call;
when the write succeeds the storage holds that record. -/
theorem toggleNotifications_off_keeps_interval (f : Faults) (st : SettingsState) (w : World)
    (hu : f.unregisterTask = false) :
    (toggleNotifications f false st w).1 = ⟨false, st.interval⟩
      ∧ Effect.setItem "settings" (JSON_stringify (SettingsState.toJS ⟨false, st.interval⟩)) ∈
          (toggleNotifications f false st w).2.since w
      ∧ (toggleNotifications f false st w).2.task = none
      ∧ (f.setItem = false →
          StoredSettings (toggleNotifications f false st w).2 ⟨false, st.interval⟩) := by
  refine ⟨by rw [toggleNotifications_eq], ?_, ?_, ?_⟩
  · rw [since_eq _ w (Effect.unregisterTaskAsync BACKGROUND_FETCH_TASK ::
        Effect.setItem "settings" (JSON_stringify (SettingsState.toJS ⟨false, st.interval⟩)) ::
        (if f.setItem then [Effect.consoleError "Error saving settings:"] else []))
      (by simp [toggleNotifications_eq, saveSettings_log, unregister_eq, hu])]
    simp
  · simp [toggleNotifications_eq, saveSettings_task, unregister_eq, hu]
  · intro hs
    apply storedSettings_of_storage
    simp [toggleNotifications_eq, saveSettings_storage, hs]

/-- C13 at a disable from reminders enabled at interval 45. -/
theorem toggleNotifications_off_keeps_interval_witness :
    noFaults.unregisterTask = false ∧
    ((toggleNotifications noFaults false ⟨true, 45⟩ emptyWorld).1 = ⟨false, 45⟩
      ∧ StoredSettings (toggleNotifications noFaults false ⟨true, 45⟩ emptyWorld).2 ⟨false, 45⟩) :=
  ⟨rfl,
    (toggleNotifications_off_keeps_interval noFaults ⟨true, 45⟩ emptyWorld rfl).1,
    (toggleNotifications_off_keeps_interval noFaults ⟨true, 45⟩ emptyWorld rfl).2.2.2 rfl⟩

/-- C15, as the claim states it, fails: from the initial settings,
`updateInterval(0)` followed by `toggleNotifications(true)` issues no alert,
registers with minimumInterval 0 and leaves stored a settings record with
`notificationsEnabled` true and interval 0. -/
theorem zero_interval_is_enabled :
    StoredSettings (runSettings [(noFaults, .updateInterval 0),
        (noFaults, .toggleNotifications true)] initialSettings emptyWorld).2 ⟨true, 0⟩
      ∧ (runSettings [(noFaults, .updateInterval 0), (noFaults, .toggleNotifications true)]
          initialSettings emptyWorld).2.log =
        [Effect.setItem "settings" (JSON_stringify (SettingsState.toJS ⟨false, 0⟩)),
          Effect.registerTaskAsync BACKGROUND_FETCH_TASK 0,
          Effect.setItem "settings" (JSON_stringify (SettingsState.toJS ⟨true, 0⟩))] :=
  ⟨⟨_, rfl, rfl⟩, by decide⟩

/-- C15 amended: in every sequence of `toggleNotifications(v)` and
`updateInterval(n)` calls from the initial settings in which every `n` is
positive, every settings record written has a positive interval, whichever
calls reject; and no call is rejected for its interval: for every integer
`n`, positive or not, `updateInterval(n)` issues no alert and writes the
record with interval `n`, and `toggleNotifications(true)` on a state holding
any interval issues no alert, requests the registration and writes the
record with the flag set; the record is the stored one when the write
succeeds. -/
theorem runSettings_positive_interval (calls : List (Faults × SettingsCall)) (w : World)
    (hc : ∀ fc ∈ calls, ∀ n, fc.2 = SettingsCall.updateInterval n → 0 < n) :
    (∀ p, Effect.setItem "settings" p ∈ (runSettings calls initialSettings w).2.since w →
        ∃ b i, 0 < i ∧ p = JSON_stringify (SettingsState.toJS ⟨b, i⟩))
      ∧ (∀ (f : Faults) (n : Int) (st : SettingsState) (w1 : World),
          (∀ title message,
              Effect.alert title message ∉ (updateInterval f n st w1).2.since w1)
            ∧ Effect.setItem "settings"
                (JSON_stringify (SettingsState.toJS ⟨st.notificationsEnabled, n⟩)) ∈
                  (updateInterval f n st w1).2.since w1
            ∧ (f.setItem = false →
                StoredSettings (updateInterval f n st w1).2 ⟨st.notificationsEnabled, n⟩))
      ∧ (∀ (f : Faults) (st : SettingsState) (w1 : World),
          (∀ title message,
              Effect.alert title message ∉ (toggleNotifications f true st w1).2.since w1)
            ∧ Effect.registerTaskAsync BACKGROUND_FETCH_TASK (st.interval * 60) ∈
                (toggleNotifications f true st w1).2.since w1
            ∧ Effect.setItem "settings"
                (JSON_stringify (SettingsState.toJS ⟨true, st.interval⟩)) ∈
                  (toggleNotifications f true st w1).2.since w1
            ∧ (f.setItem = false →
                StoredSettings (toggleNotifications f true st w1).2 ⟨true, st.interval⟩)) := by
  refine ⟨?_, fun f n st w1 => updateInterval_accepts f n st w1,
    fun f st w1 => toggleNotifications_accepts f st w1⟩
  obtain ⟨l, hl, hp⟩ := runSettings_writes calls initialSettings w (by decide) hc
  rw [since_eq _ w l hl]
  exact hp

/-- C15 amended, at enabling and then setting the interval to 60, and at
`updateInterval(-5)` with reminders enabled, which stores the record with
interval -5, and `toggleNotifications(true)` at interval -5, which stores it
with the flag set. -/
theorem runSettings_positive_interval_witness :
    (∀ fc ∈ [(noFaults, SettingsCall.toggleNotifications true),
        (noFaults, SettingsCall.updateInterval 60)],
      ∀ n, fc.2 = SettingsCall.updateInterval n → 0 < n) ∧
    (∀ p, Effect.setItem "settings" p ∈
        (runSettings [(noFaults, SettingsCall.toggleNotifications true),
          (noFaults, SettingsCall.updateInterval 60)] initialSettings emptyWorld).2.since
          emptyWorld →
      ∃ b i, 0 < i ∧ p = JSON_stringify (SettingsState.toJS ⟨b, i⟩))
    ∧ StoredSettings (updateInterval noFaults (-5) ⟨true, 30⟩ emptyWorld).2 ⟨true, -5⟩
    ∧ (∀ title message, Effect.alert title message ∉
        (updateInterval noFaults (-5) ⟨true, 30⟩ emptyWorld).2.since emptyWorld)
    ∧ StoredSettings (toggleNotifications noFaults true ⟨false, -5⟩ emptyWorld).2 ⟨true, -5⟩ :=
  have h : ∀ fc ∈ [(noFaults, SettingsCall.toggleNotifications true),
      (noFaults, SettingsCall.updateInterval 60)],
      ∀ n, fc.2 = SettingsCall.updateInterval n → 0 < n := by
    intro fc hfc n hn
    simp only [List.mem_cons, List.mem_singleton, List.not_mem_nil, or_false] at hfc
    rcases hfc with rfl | rfl
    · cases hn
    · simp only [SettingsCall.updateInterval.injEq] at hn
      omega
  ⟨h, (runSettings_positive_interval _ emptyWorld h).1,
    ((runSettings_positive_interval _ emptyWorld h).2.1 noFaults (-5) ⟨true, 30⟩
      emptyWorld).2.2 rfl,
    ((runSettings_positive_interval _ emptyWorld h).2.1 noFaults (-5) ⟨true, 30⟩ emptyWorld).1,
    ((runSettings_positive_interval _ emptyWorld h).2.2 noFaults ⟨false, -5⟩
      emptyWorld).2.2.2 rfl⟩

/-! ## Two adds on one storage -/

/-- C14, as the claim states it, fails: on an empty storage, two valid adds
whose reads both come before their writes end with both calls finished and
a stored collection that holds only the card of the call that wrote last. -/
theorem overlapping_adds_lose_a_card :
    catRequest.Succeeds ∧ dogRequest.Succeeds ∧ StoredCards emptyWorld []
      ∧ runTwoAdds catRequest dogRequest [true, false, true, false]
          (.notStarted, .notStarted, emptyWorld)
        = (.finished, .finished,
            (runTwoAdds catRequest dogRequest [true, false, true, false]
              (.notStarted, .notStarted, emptyWorld)).2.2)
      ∧ (∀ cs, StoredCards (runTwoAdds catRequest dogRequest [true, false, true, false]
            (.notStarted, .notStarted, emptyWorld)).2.2 cs → cs = [dogRequest.card]) := by
  refine ⟨⟨rfl, rfl, by decide, by decide⟩, ⟨rfl, rfl, by decide, by decide⟩,
    Or.inl ⟨rfl, rfl⟩, rfl, ?_⟩
  intro cs h
  rcases h with ⟨h0, _⟩ | ⟨text, h1, h2⟩
  · cases h0
  · have ht : text = JSON_stringify (cardsJS [dogRequest.card]) :=
      (Option.some.inj h1).symm
    rw [ht, parse_stringify_cards] at h2
    exact (cardsJS_injective _ _ (Option.some.inj h2)).symm

/-- C14 amended: for two valid adds whose storage calls succeed, run to
completion under any schedule of their read and write steps on a storage
that holds `cs`, the storage afterwards holds `cs` followed by both new
cards when one call ran wholly before the other, and `cs` followed only by
the card of the call that wrote last when both reads came before both
writes. -/
theorem runTwoAdds_survivors (a b : AddRequest) (cs : List Card) (w : World)
    (schedule : List Bool) (ha : a.Succeeds) (hb : b.Succeeds) (hst : StoredCards w cs)
    (h1 : schedule.count true = 2) (h2 : schedule.count false = 2) :
    ∃ wf, runTwoAdds a b schedule (.notStarted, .notStarted, w) = (.finished, .finished, wf) ∧
      StoredCards wf (cs ++ survivors a.card b.card schedule) := by
  have hser := runTwoAdds_serial a b cs w ha hb hst
  have hov := runTwoAdds_overlapping a b cs w ha hb hst
  rcases schedules_of_two schedule h1 h2 with rfl | rfl | rfl | rfl | rfl | rfl
  · obtain ⟨wf, hrun, hs⟩ := hser.1
    exact ⟨wf, hrun, Or.inr ⟨_, hs, parse_stringify_cards _⟩⟩
  · obtain ⟨wf, hrun, hs⟩ := hov true false true false (by decide) (by decide)
    exact ⟨wf, hrun, Or.inr ⟨_, hs, parse_stringify_cards _⟩⟩
  · obtain ⟨wf, hrun, hs⟩ := hov true false false true (by decide) (by decide)
    exact ⟨wf, hrun, Or.inr ⟨_, hs, parse_stringify_cards _⟩⟩
  · obtain ⟨wf, hrun, hs⟩ := hser.2
    exact ⟨wf, hrun, Or.inr ⟨_, hs, parse_stringify_cards _⟩⟩
  · obtain ⟨wf, hrun, hs⟩ := hov false true false true (by decide) (by decide)
    exact ⟨wf, hrun, Or.inr ⟨_, hs, parse_stringify_cards _⟩⟩
  · obtain ⟨wf, hrun, hs⟩ := hov false true true false (by decide) (by decide)
    exact ⟨wf, hrun, Or.inr ⟨_, hs, parse_stringify_cards _⟩⟩

/-- C14 amended, at the two sample requests run one after the other on the
world that stores the sample card. -/
theorem runTwoAdds_survivors_witness :
    (catRequest.Succeeds ∧ dogRequest.Succeeds ∧ StoredCards catWorld [catCard] ∧
      [true, true, false, false].count true = 2 ∧ [true, true, false, false].count false = 2) ∧
    ∃ wf, runTwoAdds catRequest dogRequest [true, true, false, false]
        (.notStarted, .notStarted, catWorld) = (.finished, .finished, wf) ∧
      StoredCards wf ([catCard] ++
        survivors catRequest.card dogRequest.card [true, true, false, false]) :=
  ⟨⟨⟨rfl, rfl, by decide, by decide⟩, ⟨rfl, rfl, by decide, by decide⟩, Or.inr ⟨_, rfl, rfl⟩,
      by decide, by decide⟩,
    runTwoAdds_survivors catRequest dogRequest [catCard] catWorld [true, true, false, false]
      ⟨rfl, rfl, by decide, by decide⟩ ⟨rfl, rfl, by decide, by decide⟩ (Or.inr ⟨_, rfl, rfl⟩)
      (by decide) (by decide)⟩

/-! ## Storage keys -/

/-- C16: every writer leaves the value under every key other than its own
as it was: `toggleDarkMode` writes only under `appSettings`, `saveSettings`
only under `settings`, `handleAddCard` and `deleteCard` only under
`vocabCards`; so `toggleDarkMode` leaves the reminder record and
`saveSettings` leaves the theme record untouched. -/
theorem writers_touch_own_key (f : Faults) (w : World) (k : String) :
    (∀ isDarkMode, k ≠ "appSettings" → (toggleDarkMode f isDarkMode w).2.storage k = w.storage k)
      ∧ (∀ s, k ≠ "settings" → (saveSettings f s w).storage k = w.storage k)
      ∧ (∀ now word meaning example_, k ≠ "vocabCards" →
          (handleAddCard f now word meaning example_ w).storage k = w.storage k)
      ∧ (∀ id cards, k ≠ "vocabCards" → (deleteCard f id cards w).2.storage k = w.storage k)
      ∧ (∀ isDarkMode, (toggleDarkMode f isDarkMode w).2.storage "settings"
          = w.storage "settings")
      ∧ (∀ s, (saveSettings f s w).storage "appSettings" = w.storage "appSettings") :=
  ⟨fun d hk => toggleDarkMode_frame f d w k hk,
    fun s hk => saveSettings_frame f s w k hk,
    fun now word meaning example_ hk => handleAddCard_frame f now word meaning example_ w k hk,
    fun id cards hk => deleteCard_frame f id cards w k hk,
    fun d => toggleDarkMode_frame f d w "settings" (by decide),
    fun s => saveSettings_frame f s w "appSettings" (by decide)⟩

/-- C16 at the key `settings` on the world that stores the sample card:
neither `toggleDarkMode` nor an add changes what is stored under it. -/
theorem writers_touch_own_key_witness :
    ("settings" ≠ "appSettings" ∧ "settings" ≠ "vocabCards") ∧
    (toggleDarkMode noFaults false catWorld).2.storage "settings" = catWorld.storage "settings"
      ∧ (handleAddCard noFaults 2 (lit "dog") (lit "chien") [] catWorld).storage "settings"
          = catWorld.storage "settings" :=
  ⟨⟨by decide, by decide⟩,
    (writers_touch_own_key noFaults catWorld "settings").1 false (by decide),
    (writers_touch_own_key noFaults catWorld "settings").2.2.1 2 (lit "dog") (lit "chien") []
      (by decide)⟩

end VocabCardApp
